import Mathlib

/-!
Verification of the `axiom-extract` pipeline (tools/axiom-extract) against its
specification.  The C++ sources are shallowly embedded: each C++ record type
becomes a Lean structure, each pure extraction routine becomes a Lean
function, and the clang AST/CFG inputs are modelled by small inductive types
carrying exactly the distinctions the visitors inspect.  Confidence values
(C++ `double`, always decimal literals in the source) are modelled as `ℚ`.
-/

namespace AxiomExtract

/-! ### Data model (include/Axiom.h, include/Extractors.h) -/

/-- `enum class AxiomType` (Axiom.h). -/
inductive AxiomType where
  | PRECONDITION | POSTCONDITION | INVARIANT | EXCEPTION
  | EFFECT | CONSTRAINT | ANTI_PATTERN | COMPLEXITY
deriving DecidableEq, Repr

/-- `enum class SourceType` (Axiom.h). -/
inductive SourceType where
  | EXPLICIT | PATTERN | PROPAGATED | LLM
deriving DecidableEq, Repr

/-- `enum class HazardType` (Axiom.h). -/
inductive HazardType where
  | DIVISION | POINTER_DEREF | ARRAY_ACCESS | CAST
deriving DecidableEq, Repr

/-- `struct Axiom` (Axiom.h).  Strings default-construct to `""` and the
optionals to `none`, as in C++; `axiom_type`, `confidence`, `source_type`
and `line` are set at every construction site in the source, so they are
required fields here. -/
structure Axiom where
  id : String := ""
  content : String := ""
  formal_spec : String := ""
  function : String := ""
  signature : String := ""
  header : String := ""
  axiom_type : AxiomType
  confidence : ℚ
  source_type : SourceType
  line : Nat
  hazard_type : Option HazardType := none
  hazard_line : Option Nat := none
  has_guard : Option Bool := none
  guard_expression : Option String := none
deriving DecidableEq, Repr

/-- `struct Hazard` (Extractors.h lines 127-135), with its C++ member
initialisers as defaults. -/
structure Hazard where
  type : HazardType
  expression : String
  operand : String
  line : Nat
  has_guard : Bool := false
  guard_expression : String := ""
  guard_line : Nat := 0
deriving DecidableEq, Repr

/-- `struct FunctionInfo` (Extractors.h), restricted to the fields the
constraint extractor and the function callback read.  `is_template`,
`template_param_count` and `is_variadic_template` are the template fields
populated in `FunctionCallback::run` (main.cpp lines 771-800) and consumed
by the template-complexity branch of the constraint extractor. -/
structure FunctionInfo where
  name : String := ""
  qualified_name : String := ""
  signature : String := ""
  header : String := ""
  line_start : Nat := 0
  line_end : Nat := 0
  is_noexcept : Bool := false
  is_nodiscard : Bool := false
  is_deprecated : Bool := false
  is_const : Bool := false
  is_constexpr : Bool := false
  is_deleted : Bool := false
  is_defaulted : Bool := false
  is_consteval : Bool := false
  requires_clause : String := ""
  is_template : Bool := false
  template_param_count : Nat := 0
  is_variadic_template : Bool := false
deriving DecidableEq, Repr

/-! ### String helpers

`std::string::find(needle) != npos` is substring containment; we model it on
the character lists underlying Lean strings.  C++ suffix tests used in the
claims are modelled by `List.isSuffixOf` on character lists. -/

/-- `haystack.find(needle) != std::string::npos`. -/
def strContains (haystack needle : String) : Bool :=
  decide (needle.data <:+: haystack.data)

/-- `s` ends with `suffixStr`. -/
def strEndsWith (s suffixStr : String) : Bool :=
  decide (suffixStr.data <:+ s.data)

/-! ### Constraint extractor (src/ConstraintExtractor.cpp)

`analyzeReturnType` is a `std::regex` pass over the signature text producing
a `ReturnTypeInfo`; the regular-expression engine is not re-implemented here.
Instead `extractConstraints` takes the resulting `ReturnTypeInfo` as an
explicit argument and every theorem quantifies over all possible values of
it, so the theorems hold whatever the regex computes. -/

/-- `struct ReturnTypeInfo` (ConstraintExtractor.cpp lines 13-21). -/
structure ReturnTypeInfo where
  is_void : Bool := false
  is_bool : Bool := false
  is_optional : Bool := false
  is_expected : Bool := false
  is_pointer : Bool := false
  is_reference : Bool := false
  type_name : String := ""
deriving DecidableEq, Repr

/-! The thirteen axiom shapes `ConstraintExtractorImpl::extractConstraints`
(ConstraintExtractor.cpp lines 90-321) can push, one named definition per
`push_back` site. -/

def noexceptAx (func : FunctionInfo) : Axiom :=
  { id := func.qualified_name ++ ".noexcept"
  , content := func.name ++ " is guaranteed not to throw exceptions"
  , formal_spec := "noexcept == true"
  , function := func.qualified_name, signature := func.signature
  , header := func.header
  , axiom_type := .EXCEPTION, confidence := 1, source_type := .EXPLICIT
  , line := func.line_start }

def nodiscardAx (func : FunctionInfo) : Axiom :=
  { id := func.qualified_name ++ ".nodiscard"
  , content := "Return value of " ++ func.name ++ " must not be discarded"
  , formal_spec := "[[nodiscard]]"
  , function := func.qualified_name, signature := func.signature
  , header := func.header
  , axiom_type := .POSTCONDITION, confidence := 1, source_type := .EXPLICIT
  , line := func.line_start }

def constMethodAx (func : FunctionInfo) : Axiom :=
  { id := func.qualified_name ++ ".const"
  , content := func.name ++ " does not modify object state"
  , formal_spec := "this->state == old(this->state)"
  , function := func.qualified_name, signature := func.signature
  , header := func.header
  , axiom_type := .EFFECT, confidence := 1, source_type := .EXPLICIT
  , line := func.line_start }

def deletedAx (func : FunctionInfo) : Axiom :=
  { id := func.qualified_name ++ ".deleted"
  , content := func.name ++ " is explicitly deleted and cannot be called"
  , formal_spec := "callable == false"
  , function := func.qualified_name, signature := func.signature
  , header := func.header
  , axiom_type := .CONSTRAINT, confidence := 1, source_type := .EXPLICIT
  , line := func.line_start }

def constexprAx (func : FunctionInfo) : Axiom :=
  { id := func.qualified_name ++ ".constexpr"
  , content := func.name ++ " can be evaluated at compile time"
  , formal_spec := "constexpr == true"
  , function := func.qualified_name, signature := func.signature
  , header := func.header
  , axiom_type := .CONSTRAINT, confidence := 1, source_type := .EXPLICIT
  , line := func.line_start }

def constevalAx (func : FunctionInfo) : Axiom :=
  { id := func.qualified_name ++ ".consteval"
  , content := func.name ++ " must be evaluated at compile time"
  , formal_spec := "consteval == true"
  , function := func.qualified_name, signature := func.signature
  , header := func.header
  , axiom_type := .CONSTRAINT, confidence := 1, source_type := .EXPLICIT
  , line := func.line_start }

def deprecatedAx (func : FunctionInfo) : Axiom :=
  { id := func.qualified_name ++ ".deprecated"
  , content := func.name ++ " is deprecated and should not be used"
  , formal_spec := "[[deprecated]]"
  , function := func.qualified_name, signature := func.signature
  , header := func.header
  , axiom_type := .ANTI_PATTERN, confidence := 1, source_type := .EXPLICIT
  , line := func.line_start }

def requiresAx (func : FunctionInfo) : Axiom :=
  { id := func.qualified_name ++ ".requires"
  , content := "Template parameters must satisfy: " ++ func.requires_clause
  , formal_spec := func.requires_clause
  , function := func.qualified_name, signature := func.signature
  , header := func.header
  , axiom_type := .CONSTRAINT, confidence := 1, source_type := .EXPLICIT
  , line := func.line_start }

def optionalReturnAx (func : FunctionInfo) : Axiom :=
  { id := func.qualified_name ++ ".postcond.optional_value"
  , content := func.name ++ " returns std::optional which may or may not contain a value; caller must check has_value() before accessing"
  , formal_spec := "result.has_value() || result == std::nullopt"
  , function := func.qualified_name, signature := func.signature
  , header := func.header
  , axiom_type := .POSTCONDITION, confidence := 0.95, source_type := .PATTERN
  , line := func.line_start }

def boolReturnAx (func : FunctionInfo) : Axiom :=
  { id := func.qualified_name ++ ".postcond.bool_result"
  , content := func.name ++ " returns a boolean indicating success/validity; true typically indicates success or valid state"
  , formal_spec := "result in \x7btrue, false\x7d"
  , function := func.qualified_name, signature := func.signature
  , header := func.header
  , axiom_type := .POSTCONDITION, confidence := 0.85, source_type := .PATTERN
  , line := func.line_start }

def expectedReturnAx (func : FunctionInfo) : Axiom :=
  { id := func.qualified_name ++ ".postcond.expected_value"
  , content := func.name ++ " returns std::expected which contains either a value or an error; caller must check has_value() before accessing value"
  , formal_spec := "result.has_value() xor result.error()"
  , function := func.qualified_name, signature := func.signature
  , header := func.header
  , axiom_type := .POSTCONDITION, confidence := 0.95, source_type := .PATTERN
  , line := func.line_start }

def pointerReturnAx (func : FunctionInfo) : Axiom :=
  { id := func.qualified_name ++ ".postcond.pointer_nullable"
  , content := func.name ++ " returns a pointer that may be null; caller should check for nullptr before dereferencing"
  , formal_spec := "result == nullptr || is_valid_pointer(result)"
  , function := func.qualified_name, signature := func.signature
  , header := func.header
  , axiom_type := .POSTCONDITION, confidence := 0.80, source_type := .PATTERN
  , line := func.line_start }

/-- The template COMPLEXITY axiom (ConstraintExtractor.cpp lines 293-317),
whose content/formal_spec/confidence depend on the variadic flag and the
template parameter count. -/
def templateComplexityAx (func : FunctionInfo) : Axiom :=
  if func.is_variadic_template then
    { id := func.qualified_name ++ ".complexity.template_instantiation"
    , content := func.name ++ " is a variadic template; each unique parameter pack expansion causes a separate instantiation, potentially increasing code size"
    , formal_spec := "instantiation_count = O(unique_pack_expansions)"
    , function := func.qualified_name, signature := func.signature
    , header := func.header
    , axiom_type := .COMPLEXITY, confidence := 0.90, source_type := .PATTERN
    , line := func.line_start }
  else if func.template_param_count > 0 then
    { id := func.qualified_name ++ ".complexity.template_instantiation"
    , content := func.name ++ " is a template function; each unique combination of template arguments causes a separate instantiation"
    , formal_spec := "instantiation_count = O(unique_template_args^" ++ toString func.template_param_count ++ ")"
    , function := func.qualified_name, signature := func.signature
    , header := func.header
    , axiom_type := .COMPLEXITY, confidence := 0.95, source_type := .PATTERN
    , line := func.line_start }
  else
    { id := func.qualified_name ++ ".complexity.template_instantiation"
    , content := func.name ++ " is a template function that may generate multiple instantiations"
    , formal_spec := "instantiation_count >= 1"
    , function := func.qualified_name, signature := func.signature
    , header := func.header
    , axiom_type := .COMPLEXITY, confidence := 0.90, source_type := .PATTERN
    , line := func.line_start }

/-- `ConstraintExtractorImpl::extractConstraints` (ConstraintExtractor.cpp
lines 90-321): one axiom per explicit attribute flag, then return-type
pattern postconditions, then the template complexity axiom.  The list is
assembled in the same order as the C++ `push_back` sequence. -/
def extractConstraints (returnInfo : ReturnTypeInfo) (func : FunctionInfo) :
    List Axiom :=
  (if func.is_noexcept then [noexceptAx func] else []) ++
  (if func.is_nodiscard then [nodiscardAx func] else []) ++
  (if func.is_const then [constMethodAx func] else []) ++
  (if func.is_deleted then [deletedAx func] else []) ++
  (if func.is_constexpr && !func.is_consteval then [constexprAx func] else []) ++
  (if func.is_consteval then [constevalAx func] else []) ++
  (if func.is_deprecated then [deprecatedAx func] else []) ++
  (if func.requires_clause ≠ "" then [requiresAx func] else []) ++
  (if returnInfo.is_optional then [optionalReturnAx func] else []) ++
  (if returnInfo.is_bool then [boolReturnAx func] else []) ++
  (if returnInfo.is_expected then [expectedReturnAx func] else []) ++
  (if returnInfo.is_pointer && !returnInfo.is_void then [pointerReturnAx func] else []) ++
  (if func.is_template then [templateComplexityAx func] else [])


/-! ### Expression and statement AST (the clang nodes the visitors inspect)

The hazard detector and guard checker only distinguish the node shapes below;
all other clang expression forms behave like opaque leaves for them.  Source
text slices (`getCharacterData` ranges) are modelled by a deterministic
printer `exprPrint`. -/

/-- The only cast kind `GuardChecker` tests is `CK_PointerToBoolean`. -/
inductive CastKind where
  | PointerToBoolean | OtherCast
deriving DecidableEq, Repr

inductive UnaryOpcode where
  | Deref | LNot | PreInc | PostInc | PreDec | PostDec | OtherUnary
deriving DecidableEq, Repr

inductive BinOpcode where
  | Div | Rem | EQcmp | NE | LTcmp | LEcmp | GTcmp | GEcmp | LAnd | LOr | Add | OtherBin
deriving DecidableEq, Repr

inductive Expr where
  | intLit (value : Int)
  | floatLit (value : ℚ)
  | nullPtrLit
  | declRef (name : String)
  | thisExpr
  | paren (sub : Expr)
  | impCast (kind : CastKind) (sub : Expr)
  | unary (op : UnaryOpcode) (sub : Expr) (line : Nat)
  | binary (op : BinOpcode) (lhs rhs : Expr) (line : Nat)
  | memberAccess (base : Expr) (memberName : String) (isArrow : Bool) (line : Nat)
  | arraySub (base idx : Expr) (line : Nat)
  | reinterpretCast (sub : Expr) (line : Nat)
deriving DecidableEq, Repr

/-- `Expr::IgnoreParenImpCasts()`: strip parentheses and implicit casts. -/
def ignoreParenImpCasts : Expr → Expr
  | .paren s => ignoreParenImpCasts s
  | .impCast _ s => ignoreParenImpCasts s
  | e => e

def unaryKindSpelling : UnaryOpcode → String
  | .Deref => "*" | .LNot => "!" | .PreInc => "++" | .PostInc => "++"
  | .PreDec => "--" | .PostDec => "--" | .OtherUnary => "~"

def binKindSpelling : BinOpcode → String
  | .Div => "/" | .Rem => "%" | .EQcmp => "==" | .NE => "!="
  | .LTcmp => "<" | .LEcmp => "<=" | .GTcmp => ">" | .GEcmp => ">="
  | .LAnd => "&&" | .LOr => "||" | .Add => "+" | .OtherBin => "?"

/-- Deterministic stand-in for the raw source text of an expression
(implicit casts are invisible in source text). -/
def exprPrint : Expr → String
  | .intLit v => toString v
  | .floatLit v => toString v
  | .nullPtrLit => "nullptr"
  | .declRef n => n
  | .thisExpr => "this"
  | .paren s => "(" ++ exprPrint s ++ ")"
  | .impCast _ s => exprPrint s
  | .unary op s _ =>
      match op with
      | .PostInc => exprPrint s ++ "++"
      | .PostDec => exprPrint s ++ "--"
      | _ => unaryKindSpelling op ++ exprPrint s
  | .binary op l r _ => exprPrint l ++ " " ++ binKindSpelling op ++ " " ++ exprPrint r
  | .memberAccess b m arrow _ => exprPrint b ++ (if arrow then "->" else ".") ++ m
  | .arraySub b i _ => exprPrint b ++ "[" ++ exprPrint i ++ "]"
  | .reinterpretCast s _ => "reinterpret_cast<T>(" ++ exprPrint s ++ ")"

/-! ### Hazard detector (src/HazardDetector.cpp) -/

/-- `HazardVisitor::getExprText`: source text clamped to 100 characters. -/
def getExprText (e : Expr) : String := (exprPrint e).take 100

/-- The single `RecursiveASTVisitor` traversal of `HazardVisitor`
(HazardDetector.cpp lines 17-127): every node is visited in preorder, each
`Visit*` hook contributing its hazards before the children's. -/
def hazardsOfExpr : Expr → List Hazard
  | .intLit _ => []
  | .floatLit _ => []
  | .nullPtrLit => []
  | .declRef _ => []
  | .thisExpr => []
  | .paren s => hazardsOfExpr s
  | .impCast _ s => hazardsOfExpr s
  | .unary op s line =>
      -- VisitUnaryOperator (lines 47-64): `*p`, skipped for `this`
      (if op = .Deref ∧ ignoreParenImpCasts s ≠ .thisExpr then
        [{ type := .POINTER_DEREF
         , expression := getExprText (.unary op s line)
         , operand := getExprText (ignoreParenImpCasts s)
         , line := line }]
       else []) ++ hazardsOfExpr s
  | .binary op l r line =>
      -- VisitBinaryOperator (lines 24-44): `a / b`, `a % b`; skipped when
      -- the divisor (modulo parens and implicit casts) is a non-zero
      -- IntegerLiteral
      (let divisorIsNonzeroIntLit : Bool :=
        match ignoreParenImpCasts r with
        | .intLit v => v != 0
        | _ => false
      if (op = .Div ∨ op = .Rem) ∧ divisorIsNonzeroIntLit = false then
        [{ type := .DIVISION
         , expression := getExprText (.binary op l r line)
         , operand := getExprText r
         , line := line }]
       else []) ++ hazardsOfExpr l ++ hazardsOfExpr r
  | .memberAccess b m arrow line =>
      -- VisitMemberExpr (lines 67-84): `p->member`, skipped for `this`
      (if arrow ∧ ignoreParenImpCasts b ≠ .thisExpr then
        [{ type := .POINTER_DEREF
         , expression := getExprText (.memberAccess b m arrow line)
         , operand := getExprText (ignoreParenImpCasts b)
         , line := line }]
       else []) ++ hazardsOfExpr b
  | .arraySub b i line =>
      -- VisitArraySubscriptExpr (lines 87-95): always flagged
      [{ type := .ARRAY_ACCESS
       , expression := getExprText (.arraySub b i line)
       , operand := getExprText i
       , line := line }] ++ hazardsOfExpr b ++ hazardsOfExpr i
  | .reinterpretCast s line =>
      -- VisitCXXReinterpretCastExpr (lines 98-106): always flagged
      [{ type := .CAST
       , expression := getExprText (.reinterpretCast s line)
       , operand := getExprText s
       , line := line }] ++ hazardsOfExpr s

/-- Statements: hazards live in the contained expressions; statements are
just traversed. -/
inductive Stmt where
  | exprStmt (e : Expr)
  | returnStmt (e : Option Expr)
  | compound (stmts : List Stmt)
  | ifStmt (cond : Expr) (thenS : Stmt) (elseS : Option Stmt)
deriving Repr

mutual

def stmtHazards : Stmt → List Hazard
  | .exprStmt e => hazardsOfExpr e
  | .returnStmt none => []
  | .returnStmt (some e) => hazardsOfExpr e
  | .compound ss => stmtListHazards ss
  | .ifStmt c t none => hazardsOfExpr c ++ stmtHazards t
  | .ifStmt c t (some e) => hazardsOfExpr c ++ stmtHazards t ++ stmtHazards e

def stmtListHazards : List Stmt → List Hazard
  | [] => []
  | s :: rest => stmtHazards s ++ stmtListHazards rest

end

/-- `HazardDetectorImpl::detectHazards` (HazardDetector.cpp lines 131-142):
a function without a body yields `[]`. -/
def detectHazards (body : Option Stmt) : List Hazard :=
  match body with
  | none => []
  | some b => stmtHazards b

/-! ### Guard condition checker (src/GuardAnalyzer.cpp, class GuardChecker) -/

/-- `GuardChecker::getConditionText`: source text clamped to 200 chars. -/
def getConditionText (e : Expr) : String := (exprPrint e).take 200

/-- `GuardChecker::isNullLiteral` (GuardAnalyzer.cpp lines 169-180). -/
def isNullLiteral (e : Expr) : Bool :=
  let e := ignoreParenImpCasts e
  match e with
  | .nullPtrLit => true
  | .intLit v => v == 0
  | _ =>
    let text := getConditionText e
    text == "NULL" || text == "nullptr"

/-- `GuardChecker::isZeroLiteral` (GuardAnalyzer.cpp lines 182-191). -/
def isZeroLiteral (e : Expr) : Bool :=
  let e := ignoreParenImpCasts e
  match e with
  | .intLit v => v == 0
  | .floatLit v => v == 0
  | _ => false

/-- `GuardChecker::checkBinaryOp` (GuardAnalyzer.cpp lines 110-167): the
sequence of early-returning pattern tests, collapsed into a disjunction in
source order. -/
def checkBinaryOp (op : BinOpcode) (lhs rhs : Expr) (type : HazardType)
    (operand : String) : Bool :=
  let lhsText := getConditionText lhs
  let rhsText := getConditionText rhs
  (type == .POINTER_DEREF && op == .NE &&
    ((strContains lhsText operand && isNullLiteral rhs) ||
     (strContains rhsText operand && isNullLiteral lhs))) ||
  (type == .DIVISION && op == .NE &&
    ((strContains lhsText operand && isZeroLiteral rhs) ||
     (strContains rhsText operand && isZeroLiteral lhs))) ||
  (type == .ARRAY_ACCESS &&
    (((op == .LTcmp || op == .LEcmp) && strContains lhsText operand) ||
     ((op == .GTcmp || op == .GEcmp) && strContains rhsText operand)))

/-- `GuardChecker::checkCondition` (GuardAnalyzer.cpp lines 69-108).  The
C++ body is a sequence of early returns: any `BinaryOperator` — including
`&&` (`BO_LAnd`) — is dispatched to `checkBinaryOp` by the first test and
returns there, so the later "Logical AND: combine guards" block at lines
100-105 is unreachable; a match on the stripped condition reproduces that
control flow exactly.  The `ImplicitCastExpr` arm is likewise dead (the
condition was already stripped by `IgnoreParenImpCasts`), but is kept to
mirror the source. -/
def checkCondition (type : HazardType) (operand : String) (cond : Expr) : Bool :=
  match ignoreParenImpCasts cond with
  | .binary op l r _ => checkBinaryOp op l r type operand
  | .unary .LNot _ _ => false
  | .impCast .PointerToBoolean s =>
      strContains (getConditionText (.impCast .PointerToBoolean s)) operand &&
        type == .POINTER_DEREF
  | _ => false

/-- `GuardChecker::isGuardFor` (GuardAnalyzer.cpp lines 40-51). -/
def isGuardFor (cond : Expr) (h : Hazard) : Bool :=
  checkCondition h.type h.operand cond

/-! ### Hazard-axiom emission (`FunctionCallback::run`, main.cpp 808-844) -/

/-- The axiom built for one unguarded hazard: the id-suffix ternary covers
DIVISION and POINTER_DEREF and falls through to `"bounds_check"` for
everything else; the content/formal_spec chain covers DIVISION,
POINTER_DEREF and ARRAY_ACCESS only, so for a CAST hazard both strings
keep their default-constructed empty value. -/
def hazardAxiom (info : FunctionInfo) (h : Hazard) : Axiom :=
  { id := info.qualified_name ++ ".precond." ++
      (if h.type = .DIVISION then "divisor_nonzero"
       else if h.type = .POINTER_DEREF then "ptr_valid"
       else "bounds_check")
  , function := info.qualified_name
  , signature := info.signature
  , header := info.header
  , axiom_type := .PRECONDITION
  , confidence := 0.95
  , source_type := .PATTERN
  , line := h.line
  , hazard_type := some h.type
  , hazard_line := some h.line
  , has_guard := some false
  , content :=
      if h.type = .DIVISION then "Divisor " ++ h.operand ++ " must not be zero"
      else if h.type = .POINTER_DEREF then "Pointer " ++ h.operand ++ " must not be null"
      else if h.type = .ARRAY_ACCESS then "Index must be within bounds for " ++ h.expression
      else ""
  , formal_spec :=
      if h.type = .DIVISION then h.operand ++ " != 0"
      else if h.type = .POINTER_DEREF then h.operand ++ " != nullptr"
      else if h.type = .ARRAY_ACCESS then "0 <= index && index < size"
      else "" }

/-- The per-hazard loop of `FunctionCallback::run`: only hazards with
`has_guard == false` are emitted (which is all of them, since nothing in
the pipeline ever sets `has_guard`). -/
def hazardAxioms (info : FunctionInfo) (hazards : List Hazard) : List Axiom :=
  (hazards.filter (fun h => !h.has_guard)).map (hazardAxiom info)

/-! ### Effect detector (src/EffectDetector.cpp)

`EffectVisitor` is a `RecursiveASTVisitor`; its dispatch is embedded as a
fold over the sequence of visited nodes, each event constructor carrying
exactly the data the corresponding `Visit*` hook reads.  The parent-map
lookup of `isCallResultCached` is carried as a `ParentKind` field computed
from `ctx.getParents(*call)[0]`. -/

/-- `enum class EffectKind`: modelled from its uses in EffectDetector.cpp
and main.cpp (the defining header is not part of the provided sources). -/
inductive EffectKind where
  | PARAM_MODIFY | MEMBER_WRITE | MEMORY_ALLOC | MEMORY_FREE
  | CONTAINER_MODIFY | CALL_FREQUENCY
deriving DecidableEq, Repr

/-- `struct Effect`: fields modelled from every assignment in
EffectDetector.cpp; `call_count`, `is_cached`, `occurs_at_start` are only
set on CALL_FREQUENCY effects. -/
structure Effect where
  kind : EffectKind
  target : String := ""
  expression : String := ""
  line : Nat := 0
  confidence : ℚ
  call_count : Nat := 0
  is_cached : Bool := false
  occurs_at_start : Bool := false
deriving DecidableEq, Repr

/-- `EffectVisitor::CallInfo` (EffectDetector.cpp lines 400-404). -/
structure CallInfo where
  expression : String
  line : Nat
  result_is_cached : Bool
deriving DecidableEq, Repr

/-- The first entry of `ctx.getParents(*call)`, as far as
`isCallResultCached` inspects it. -/
inductive ParentKind where
  | varDeclParent
  | binOpParent (isAssignmentOp : Bool)
  | noParent
  | otherParent
deriving DecidableEq, Repr

/-- `EffectVisitor::isCallResultCached` (EffectDetector.cpp lines 308-330):
true iff the call is the initializer of a `VarDecl` or the child of an
assignment `BinaryOperator`. -/
def isCallResultCached : ParentKind → Bool
  | .varDeclParent => true
  | .binOpParent isAssignmentOp => isAssignmentOp
  | .noParent => false
  | .otherParent => false

/-- `CONTAINER_MODIFY_METHODS` (EffectDetector.cpp lines 24-29). -/
def CONTAINER_MODIFY_METHODS : List String :=
  ["push_back", "push_front", "pop_back", "pop_front",
   "insert", "emplace", "emplace_back", "emplace_front",
   "erase", "clear", "resize", "reserve",
   "assign", "swap", "append", "replace"]

/-- The left-hand-side / subexpression shapes the assignment and
increment/decrement hooks distinguish. -/
inductive LhsForm where
  | declRefL (name : String)
  | memberL (memberName : String) (ofThis : Bool)
  | derefDeclRefL (name : String)
  | otherL
deriving DecidableEq, Repr

/-- One visited AST node, carrying the data its `Visit*` hook reads. -/
inductive BodyEvent where
  | forLoopAt (line : Nat)
  | whileLoopAt (line : Nat)
  | forRangeAt (line : Nat)
  | assignTo (lhs : LhsForm) (text : String) (line : Nat)
  | incDec (sub : LhsForm) (text : String) (line : Nat)
  | newEx (allocatedType : String) (text : String) (line : Nat)
  | deleteEx (argText : String) (text : String) (line : Nat)
  | memberCall (methodName qualName : String) (objText text : String)
      (line : Nat) (parent : ParentKind)
  | freeCall (name qualName : String) (text : String)
      (arg0Text : Option String) (line : Nat) (parent : ParentKind)
deriving DecidableEq, Repr

/-- The visitor's fixed context: the non-const reference / non-const
pointer parameter names collected in the constructor, and `isConstMethod_`. -/
structure EffectVisitorParams where
  modifiableParams : List String := []
  pointerParams : List String := []
  isConstMethod : Bool := false
deriving Repr

/-- The visitor's mutable state: accumulated effects, the per-callee call
table (`std::map` keyed by qualified name; only per-key contents and the
key set matter to the synthesis step) and `loop_start_lines_`
(a `std::set<int>`, of which only emptiness and the minimum are read). -/
structure EffectVisitorState where
  effects : List Effect := []
  call_frequencies : List (String × List CallInfo) := []
  loop_start_lines : List Nat := []
deriving Repr

/-- `call_frequencies_[qualified_name].push_back(info)`. -/
def addCall (m : List (String × List CallInfo)) (key : String) (ci : CallInfo) :
    List (String × List CallInfo) :=
  match m with
  | [] => [(key, [ci])]
  | (k, cs) :: rest =>
      if k = key then (k, cs ++ [ci]) :: rest else (k, cs) :: addCall rest key ci

/-- One step of the `EffectVisitor` traversal: the bodies of
`VisitForStmt`/`VisitWhileStmt`/`VisitCXXForRangeStmt` (lines 61-77),
`VisitBinaryOperator` (79-143), `VisitUnaryOperator` (146-187),
`VisitCXXNewExpr` (190-199), `VisitCXXDeleteExpr` (202-211),
`VisitCXXMemberCallExpr` (214-243) and `VisitCallExpr` (246-291). -/
def visitEvent (p : EffectVisitorParams) (st : EffectVisitorState) :
    BodyEvent → EffectVisitorState
  | .forLoopAt line => { st with loop_start_lines := st.loop_start_lines ++ [line] }
  | .whileLoopAt line => { st with loop_start_lines := st.loop_start_lines ++ [line] }
  | .forRangeAt line => { st with loop_start_lines := st.loop_start_lines ++ [line] }
  | .assignTo lhs text line =>
      match lhs with
      | .declRefL name =>
          if name ∈ p.modifiableParams then
            { st with effects := st.effects ++
              [{ kind := .PARAM_MODIFY, target := name, expression := text
               , line := line, confidence := 0.95 }] }
          else st
      | .memberL memberName ofThis =>
          if ¬ p.isConstMethod ∧ ofThis then
            { st with effects := st.effects ++
              [{ kind := .MEMBER_WRITE, target := memberName, expression := text
               , line := line, confidence := 0.95 }] }
          else st
      | .derefDeclRefL name =>
          if name ∈ p.pointerParams then
            { st with effects := st.effects ++
              [{ kind := .PARAM_MODIFY, target := "*" ++ name, expression := text
               , line := line, confidence := 0.95 }] }
          else st
      | .otherL => st
  | .incDec sub text line =>
      match sub with
      | .declRefL name =>
          if name ∈ p.modifiableParams then
            { st with effects := st.effects ++
              [{ kind := .PARAM_MODIFY, target := name, expression := text
               , line := line, confidence := 0.95 }] }
          else st
      | .memberL memberName ofThis =>
          if ¬ p.isConstMethod ∧ ofThis then
            { st with effects := st.effects ++
              [{ kind := .MEMBER_WRITE, target := memberName, expression := text
               , line := line, confidence := 0.95 }] }
          else st
      | _ => st
  | .newEx allocatedType text line =>
      { st with effects := st.effects ++
        [{ kind := .MEMORY_ALLOC, target := allocatedType, expression := text
         , line := line, confidence := 0.95 }] }
  | .deleteEx argText text line =>
      { st with effects := st.effects ++
        [{ kind := .MEMORY_FREE, target := argText, expression := text
         , line := line, confidence := 0.95 }] }
  | .memberCall methodName qualName objText text line parent =>
      let st := { st with call_frequencies :=
        (addCall st.call_frequencies qualName
          { expression := text, line := line
          , result_is_cached := isCallResultCached parent }) }
      if methodName ∈ CONTAINER_MODIFY_METHODS then
        { st with effects := st.effects ++
          [{ kind := .CONTAINER_MODIFY, target := objText, expression := text
           , line := line, confidence := 0.90 }] }
      else st
  | .freeCall name qualName text arg0Text line parent =>
      let st := { st with call_frequencies :=
        (addCall st.call_frequencies qualName
          { expression := text, line := line
          , result_is_cached := isCallResultCached parent }) }
      let st :=
        if name = "malloc" ∨ name = "calloc" ∨ name = "realloc" then
          { st with effects := st.effects ++
            [{ kind := .MEMORY_ALLOC, target := name, expression := text
             , line := line, confidence := 0.95 }] }
        else st
      if name = "free" then
        { st with effects := st.effects ++
          [{ kind := .MEMORY_FREE
           , target := (match arg0Text with | some t => t | none => "unknown")
           , expression := text, line := line, confidence := 0.95 }] }
      else st

/-- `EffectVisitor::generateCallFrequencyEffects` (EffectDetector.cpp lines
332-375): one CALL_FREQUENCY effect per distinct callee. `is_cached` is
line 354: exactly one call site AND its result stored.  `occurs_at_start`
starts true and is cleared when any call line reaches the first (minimum)
loop line (lines 357-366). -/
def callFrequencyEffect (loopLines : List Nat) (key : String)
    (calls : List CallInfo) (c0 : CallInfo) : Effect :=
  { kind := .CALL_FREQUENCY
  , target := key
  , call_count := calls.length
    -- line 354: "Multiple calls means NOT cached/reused, even if each
    -- individual result is stored"
  , is_cached := calls.length == 1 && c0.result_is_cached
    -- lines 357-366: starts true; cleared when any call line reaches the
    -- first (minimum) loop line
  , occurs_at_start :=
      (match loopLines.min? with
       | none => true
       | some firstLoopLine => calls.all (fun ci => ci.line < firstLoopLine))
  , expression := c0.expression
  , line := c0.line
  , confidence := 0.90 }

/-- One iteration of the `for (const auto& [func_name, calls] : ...)` loop. -/
def genCFStep (loopLines : List Nat) (effs : List Effect)
    (entry : String × List CallInfo) : List Effect :=
  match entry.2 with
  | [] => effs  -- "Skip if no calls (shouldn't happen)"
  | c0 :: _ => effs ++ [callFrequencyEffect loopLines entry.1 entry.2 c0]

def generateCallFrequencyEffects (st : EffectVisitorState) : List Effect :=
  st.call_frequencies.foldl (genCFStep st.loop_start_lines) []

/-- `EffectDetectorImpl::detectEffects` via `EffectVisitor::getEffects`
(EffectDetector.cpp lines 54-58, 411-422): traverse the body, then append
the synthesized call-frequency effects. -/
def detectEffects (p : EffectVisitorParams) (events : List BodyEvent) :
    List Effect :=
  let st := events.foldl (visitEvent p) {}
  st.effects ++ generateCallFrequencyEffects st

/-! ### Effect-axiom emission (`FunctionCallback::run`, main.cpp 854-897) -/

/-- The per-effect `switch`: no case handles CALL_FREQUENCY, so that
axiom keeps empty id/content/formal_spec. -/
def effectAxiom (info : FunctionInfo) (e : Effect) : Axiom :=
  let base : Axiom :=
    { id := "", content := "", formal_spec := ""
    , function := info.qualified_name
    , signature := info.signature
    , header := info.header
    , axiom_type := .EFFECT
    , confidence := e.confidence
    , source_type := .PATTERN
    , line := e.line }
  match e.kind with
  | .PARAM_MODIFY =>
      { base with
          id := info.qualified_name ++ ".effect.modifies_" ++ e.target,
          content := "Modifies parameter " ++ e.target,
          formal_spec := "modifies(" ++ e.target ++ ")" }
  | .MEMBER_WRITE =>
      { base with
          id := info.qualified_name ++ ".effect.writes_" ++ e.target,
          content := "Writes to member " ++ e.target,
          formal_spec := "modifies(this." ++ e.target ++ ")" }
  | .MEMORY_ALLOC =>
      { base with
          id := info.qualified_name ++ ".effect.allocates",
          content := "Allocates memory for " ++ e.target,
          formal_spec := "allocates(" ++ e.target ++ ")" }
  | .MEMORY_FREE =>
      { base with
          id := info.qualified_name ++ ".effect.deallocates",
          content := "Deallocates memory for " ++ e.target,
          formal_spec := "deallocates(" ++ e.target ++ ")" }
  | .CONTAINER_MODIFY =>
      { base with
          id := info.qualified_name ++ ".effect.modifies_container",
          content := "Modifies container " ++ e.target,
          formal_spec := "modifies(" ++ e.target ++ ")" }
  | .CALL_FREQUENCY => base

def effectAxioms (info : FunctionInfo) (effects : List Effect) : List Axiom :=
  effects.map (effectAxiom info)

/-! ### Macro axioms (`createMacroAxioms`, main.cpp lines 340-505)

`processBatch` feeds every captured macro definition to the local
`createMacroAxioms` (main.cpp line 1464).  The regex passes
`analyzeMacroBody` (filling the hazard booleans of the `MacroDefinition`)
and `analyzeMacroSemantics` are not re-implemented; the booleans are fields
of the inputs and the theorems quantify over all their values. -/

/-- `struct MacroDefinition` (Axiom.h lines 43-71). -/
structure MacroDefinition where
  name : String := ""
  parameters : List String := []
  body : String := ""
  is_function_like : Bool := false
  file_path : String := ""
  line_start : Nat := 0
  line_end : Nat := 0
  has_division : Bool := false
  has_pointer_ops : Bool := false
  has_casts : Bool := false
  function_calls : List String := []
  referenced_macros : List String := []
deriving DecidableEq, Repr

/-- `MacroDefinition::to_signature`. -/
def MacroDefinition.to_signature (m : MacroDefinition) : String :=
  if m.is_function_like then
    m.name ++ "(" ++ String.intercalate ", " m.parameters ++ ")"
  else m.name

/-- `struct MacroSemantics` (main.cpp lines 222-233). -/
structure MacroSemantics where
  has_lambda_capture : Bool := false
  has_reference_capture : Bool := false
  has_template_call : Bool := false
  has_return_statement : Bool := false
  is_incomplete : Bool := false
  has_loop_construct : Bool := false
  creates_local_vars : Bool := false
  local_vars : List String := []
  template_param : String := ""
deriving DecidableEq, Repr

/-- The "Expands to:" suffix appended to the baseline macro axiom content
(main.cpp lines 367-377): at most the first three referenced macros. -/
def referencedMacrosSuffix (refs : List String) : String :=
  if refs = [] then ""
  else ". Expands to: " ++ String.intercalate ", " (refs.take 3) ++
    (if refs.length > 3 then "..." else "")

/-! The axiom shapes of `createMacroAxioms` (main.cpp lines 340-505), one
named definition per `push_back` site. -/

def macroDefinitionAx (m : MacroDefinition) : Axiom :=
  { id := m.name ++ ".macro_definition"
  , content := "Macro " ++ m.name ++ " is a function-like macro" ++
      (if m.parameters ≠ [] then
        " with parameters: " ++ String.intercalate ", " m.parameters
       else "") ++ referencedMacrosSuffix m.referenced_macros
  , formal_spec := "is_function_like_macro(" ++ m.name ++ ")"
  , function := m.name, signature := "#define " ++ m.to_signature
  , header := m.file_path
  , axiom_type := .CONSTRAINT, confidence := 1, source_type := .EXPLICIT
  , line := m.line_start }

def macroDivisionAx (m : MacroDefinition) : Axiom :=
  { id := m.name ++ ".precond.divisor_nonzero"
  , content := "Divisor in macro " ++ m.name ++ " must not be zero"
  , formal_spec := "divisor != 0"
  , function := m.name, signature := "#define " ++ m.to_signature
  , header := m.file_path
  , axiom_type := .PRECONDITION, confidence := 0.9, source_type := .PATTERN
  , line := m.line_start
  , hazard_type := some .DIVISION, hazard_line := some m.line_start
  , has_guard := some false }

def macroRefCaptureAx (m : MacroDefinition) : Axiom :=
  { id := m.name ++ ".constraint.reference_capture"
  , content := "Variables used in " ++ m.name ++ " are captured by reference ([&]), allowing modifications to affect the outer scope"
  , formal_spec := "capture_mode == by_reference"
  , function := m.name, signature := "#define " ++ m.to_signature
  , header := m.file_path
  , axiom_type := .CONSTRAINT, confidence := 1, source_type := .EXPLICIT
  , line := m.line_start }

def macroDanglingRefAx (m : MacroDefinition) : Axiom :=
  { id := m.name ++ ".anti_pattern.dangling_reference"
  , content := "Passing temporary objects to " ++ m.name ++ " may cause dangling references due to [&] capture"
  , formal_spec := "isTemporary(arg) -> undefined_behavior"
  , function := m.name, signature := "#define " ++ m.to_signature
  , header := m.file_path
  , axiom_type := .ANTI_PATTERN, confidence := 0.9, source_type := .PATTERN
  , line := m.line_start }

def macroTemplateCallAx (sem : MacroSemantics) (m : MacroDefinition) : Axiom :=
  { id := m.name ++ ".complexity.template_instantiation"
  , content := "Each unique value of " ++ sem.template_param ++ " causes a separate template instantiation, increasing compile time and code size"
  , formal_spec := "compile_time_cost proportional_to distinct_" ++ sem.template_param ++ "_values"
  , function := m.name, signature := "#define " ++ m.to_signature
  , header := m.file_path
  , axiom_type := .COMPLEXITY, confidence := 0.95, source_type := .PATTERN
  , line := m.line_start }

def macroIncompleteAx (m : MacroDefinition) : Axiom :=
  { id := m.name ++ ".constraint.requires_completion"
  , content := "Macro " ++ m.name ++ " is syntactically incomplete and requires a companion macro or closing syntax"
  , formal_spec := "requires_companion_macro(" ++ m.name ++ ")"
  , function := m.name, signature := "#define " ++ m.to_signature
  , header := m.file_path
  , axiom_type := .CONSTRAINT, confidence := 1, source_type := .EXPLICIT
  , line := m.line_start }

def macroLocalVarsAx (sem : MacroSemantics) (m : MacroDefinition) : Axiom :=
  let varList := String.intercalate ", " sem.local_vars.dedup
  { id := m.name ++ ".postcondition.local_vars_available"
  , content := "After " ++ m.name ++ " expansion, the following identifiers are available in scope: " ++ varList
  , formal_spec := "in_scope(\x7b" ++ varList ++ "\x7d)"
  , function := m.name, signature := "#define " ++ m.to_signature
  , header := m.file_path
  , axiom_type := .POSTCONDITION, confidence := 0.95, source_type := .PATTERN
  , line := m.line_start }

def macroIterationAx (m : MacroDefinition) : Axiom :=
  { id := m.name ++ ".effect.iteration"
  , content := "Macro " ++ m.name ++ " performs iteration over a range or condition"
  , formal_spec := "has_iteration_semantics"
  , function := m.name, signature := "#define " ++ m.to_signature
  , header := m.file_path
  , axiom_type := .EFFECT, confidence := 0.9, source_type := .PATTERN
  , line := m.line_start }

/-- `createMacroAxioms` (main.cpp lines 340-505), with the
`MacroSemantics` regex result passed in explicitly: the baseline axiom for
every function-like macro, then the division-hazard, reference-capture,
template-call, incompleteness, local-variable and loop axioms, in the
order of the C++ `push_back` sequence. -/
def createMacroAxioms (sem : MacroSemantics) (m : MacroDefinition) : List Axiom :=
  (if m.is_function_like then [macroDefinitionAx m] else []) ++
  (if m.has_division then [macroDivisionAx m] else []) ++
  (if sem.has_reference_capture then [macroRefCaptureAx m, macroDanglingRefAx m] else []) ++
  (if sem.has_template_call ∧ sem.template_param ≠ "" then [macroTemplateCallAx sem m] else []) ++
  (if sem.is_incomplete then [macroIncompleteAx m] else []) ++
  (if sem.creates_local_vars ∧ sem.local_vars ≠ [] then [macroLocalVarsAx sem m] else []) ++
  (if sem.has_loop_construct then [macroIterationAx m] else [])


/-! ### Class/enum/static_assert/concept/type-alias axioms (main.cpp) -/

/-- The class properties `ClassCallback::run` reads (main.cpp 919-1017). -/
structure ClassDeclInfo where
  name : String := ""
  qualified_name : String := ""
  header : String := ""
  line : Nat := 0
  hasFinalAttr : Bool := false
  isAbstract : Bool := false
  hasVirtualDestructor : Bool := false
  isTriviallyCopyable : Bool := false
deriving DecidableEq, Repr

/-- The axioms `ClassCallback::run` appends (main.cpp lines 953-1012). -/
def classAxioms (c : ClassDeclInfo) : List Axiom :=
  (if c.hasFinalAttr then
    [{ id := c.qualified_name ++ ".final"
     , content := c.name ++ " cannot be inherited from (final class)"
     , formal_spec := "is_final(" ++ c.name ++ ")"
     , function := c.qualified_name, header := c.header
     , axiom_type := .CONSTRAINT, confidence := 1, source_type := .EXPLICIT
     , line := c.line }] else []) ++
  (if c.isAbstract then
    [{ id := c.qualified_name ++ ".abstract"
     , content := c.name ++ " is abstract and cannot be instantiated directly"
     , formal_spec := "is_abstract(" ++ c.name ++ ")"
     , function := c.qualified_name, header := c.header
     , axiom_type := .CONSTRAINT, confidence := 1, source_type := .EXPLICIT
     , line := c.line }] else []) ++
  (if c.hasVirtualDestructor then
    [{ id := c.qualified_name ++ ".virtual_dtor"
     , content := c.name ++ " has virtual destructor (safe for polymorphic use)"
     , formal_spec := "has_virtual_destructor(" ++ c.name ++ ")"
     , function := c.qualified_name, header := c.header
     , axiom_type := .CONSTRAINT, confidence := 1, source_type := .EXPLICIT
     , line := c.line }] else []) ++
  (if c.isTriviallyCopyable then
    [{ id := c.qualified_name ++ ".trivially_copyable"
     , content := c.name ++ " is trivially copyable (safe for memcpy/memmove)"
     , formal_spec := "is_trivially_copyable(" ++ c.name ++ ")"
     , function := c.qualified_name, header := c.header
     , axiom_type := .CONSTRAINT, confidence := 1, source_type := .EXPLICIT
     , line := c.line }] else [])

/-- `EnumCallback::run` (main.cpp 1029-1080): one axiom for scoped enums. -/
def enumAxioms (name qualName header : String) (line : Nat) (isScoped : Bool) :
    List Axiom :=
  if isScoped then
    [{ id := qualName ++ ".scoped"
     , content := name ++ " is a scoped enum (enum class) - values require qualification"
     , formal_spec := "is_scoped_enum(" ++ name ++ ")"
     , function := qualName, header := header
     , axiom_type := .CONSTRAINT, confidence := 1, source_type := .EXPLICIT
     , line := line }]
  else []

/-- `StaticAssertCallback::run` (main.cpp 1092-1156): always one axiom. -/
def staticAssertAxioms (header condStr message : String) (line : Nat) :
    List Axiom :=
  [{ id := header ++ ".static_assert." ++ toString line
   , content := if message = "" then "Static assertion: " ++ condStr else message
   , formal_spec := condStr
   , function := "", header := header
   , axiom_type := .INVARIANT, confidence := 1, source_type := .EXPLICIT
   , line := line }]

/-- `ConceptCallback::run` (main.cpp 1168-1223): always one axiom. -/
def conceptAxioms (name qualName header constraintStr : String) (line : Nat) :
    List Axiom :=
  [{ id := qualName ++ ".concept"
   , content := "Concept " ++ name ++ " requires: " ++ constraintStr
   , formal_spec := constraintStr
   , function := qualName, header := header
   , axiom_type := .CONSTRAINT, confidence := 1, source_type := .EXPLICIT
   , line := line }]

/-- `TypeAliasCallback::run` (main.cpp 1235-1293): one axiom when the
aliased type name is non-empty. -/
def typeAliasAxioms (name qualName header aliasedType : String) (line : Nat) :
    List Axiom :=
  if aliasedType ≠ "" then
    [{ id := qualName ++ ".type_alias"
     , content := name ++ " is an alias for " ++ aliasedType
     , formal_spec := "type(" ++ name ++ ") == " ++ aliasedType
     , function := qualName, header := header
     , axiom_type := .CONSTRAINT, confidence := 1, source_type := .EXPLICIT
     , line := line }]
  else []

/-! ### Test-assertion axioms (src/TestAssertExtractor.cpp) -/

inductive TestFramework where
  | AUTO | CATCH2 | GTEST | BOOST_TEST
deriving DecidableEq, Repr

/-- `struct TestAssertion` (Extractors.h lines 217-227). -/
structure TestAssertion where
  condition : String := ""
  function_tested : String := ""
  test_name : String := ""
  section_name : String := ""
  axiom_type : AxiomType
  confidence : ℚ
  line : Nat
  framework : TestFramework
  is_fatal : Bool
deriving DecidableEq, Repr

/-- The inputs one of the three `extract*Assertion` helpers reads off a
matched framework call: the 200-character window of surrounding source
text, the pretty-printed first argument, the line and the current test
name.  `extractTestedFunction` and `extractExceptionType` are further text
passes whose outputs are carried as fields. -/
structure AssertionSite where
  sourceText : String := ""
  condition : String := ""
  line : Nat := 0
  testName : String := ""
  functionTested : String := ""
  exceptionSuffix : String := ""
deriving DecidableEq, Repr

/-- `TestAssertVisitor::extractCatch2Assertion` (TestAssertExtractor.cpp
lines 229-271). -/
def mkCatch2Assertion (s : AssertionSite) : TestAssertion :=
  let fatal := strContains s.sourceText "ResultDisposition::Normal"
  let ty : AxiomType :=
    if strContains s.sourceText "THROWS" || strContains s.sourceText "throws" then .EXCEPTION
    else if strContains s.sourceText "NOTHROW" then .CONSTRAINT
    else .POSTCONDITION
  { condition := s.condition ++ (if ty = .EXCEPTION then s.exceptionSuffix else "")
  , function_tested := s.functionTested
  , test_name := s.testName
  , axiom_type := ty
  , confidence := if fatal then 0.85 else 0.80
  , line := s.line
  , framework := .CATCH2
  , is_fatal := fatal }

/-- `TestAssertVisitor::extractGTestAssertion` (lines 273-309). -/
def mkGTestAssertion (s : AssertionSite) : TestAssertion :=
  let fatal := strContains s.sourceText "FATAL_FAILURE" || strContains s.sourceText "ASSERT_"
  let ty : AxiomType :=
    if strContains s.sourceText "THROW" then .EXCEPTION
    else if strContains s.sourceText "NO_THROW" then .CONSTRAINT
    else .POSTCONDITION
  { condition := s.condition ++ (if ty = .EXCEPTION then s.exceptionSuffix else "")
  , function_tested := s.functionTested
  , test_name := s.testName
  , axiom_type := ty
  , confidence := if fatal then 0.85 else 0.80
  , line := s.line
  , framework := .GTEST
  , is_fatal := fatal }

/-- `TestAssertVisitor::extractBoostTestAssertion` (lines 311-346). -/
def mkBoostTestAssertion (s : AssertionSite) : TestAssertion :=
  let fatal := strContains s.sourceText "REQUIRE"
  let ty : AxiomType :=
    if strContains s.sourceText "THROW" then .EXCEPTION
    else if strContains s.sourceText "NO_THROW" then .CONSTRAINT
    else .POSTCONDITION
  { condition := s.condition ++ (if ty = .EXCEPTION then s.exceptionSuffix else "")
  , function_tested := s.functionTested
  , test_name := s.testName
  , axiom_type := ty
  , confidence := if fatal then 0.85 else 0.80
  , line := s.line
  , framework := .BOOST_TEST
  , is_fatal := fatal }

/-- Every assertion pushed onto `assertions_` is built by one of the three
helpers above. -/
inductive FrameworkSite where
  | catch2 (s : AssertionSite)
  | gtest (s : AssertionSite)
  | boost (s : AssertionSite)
deriving DecidableEq, Repr

def mkAssertion : FrameworkSite → TestAssertion
  | .catch2 s => mkCatch2Assertion s
  | .gtest s => mkGTestAssertion s
  | .boost s => mkBoostTestAssertion s

/-- `TestAssertExtractorImpl::toAxioms` (TestAssertExtractor.cpp lines
451-497). -/
def testToAxioms (assertions : List TestAssertion) : List Axiom :=
  assertions.map (fun assertion =>
    { id := "test." ++ assertion.test_name ++ ".line" ++ toString assertion.line
    , content :=
        (match assertion.axiom_type with
         | .POSTCONDITION =>
             if assertion.function_tested ≠ "" then
               assertion.function_tested ++ " satisfies: " ++ assertion.condition
             else "Postcondition: " ++ assertion.condition
         | .EXCEPTION => "Throws exception: " ++ assertion.condition
         | .CONSTRAINT => "Does not throw (noexcept behavior)"
         | _ => assertion.condition)
    , formal_spec := assertion.condition
    , function := assertion.function_tested
    , header := ""
    , axiom_type := assertion.axiom_type
    , confidence := assertion.confidence
    , source_type := .PATTERN
    , line := assertion.line })

/-! ### Guard analyzer predecessor walk (src/GuardAnalyzer.cpp, 262-348)

A clang CFG is modelled by its block list: each block has an id
(`getBlockID`), the source lines of its statements, its predecessor ids
(`preds()`, with null entries dropped, as `if (!pred) continue` does) and
an optional terminator condition (`getTerminatorCondition`).

The C++ recursion `checkPredecessorsImpl` / `findGuardImpl` has no
structural measure; it terminates because a block already in `visited`
returns immediately and recursion is gated on `visited.size() < 10`.  The
embedding makes that explicit with a fuel parameter; the C8 theorem proves
the result is independent of the fuel once it is at least 12, which is
precisely the claim that the walk examines a bounded number of blocks. -/

structure CFGBlock where
  blockID : Nat
  stmtLines : List Nat := []
  predIDs : List Nat := []
  termCond : Option Expr := none
deriving Repr

structure CFG where
  blocks : List CFGBlock
deriving Repr

/-- The predecessor ids of a block. -/
def CFG.predsOf (g : CFG) (id : Nat) : List Nat :=
  match g.blocks.find? (fun b => b.blockID = id) with
  | some b => b.predIDs
  | none => []

/-- The terminator condition of a block. -/
def CFG.termCondOf (g : CFG) (id : Nat) : Option Expr :=
  match g.blocks.find? (fun b => b.blockID = id) with
  | some b => b.termCond
  | none => none

/-- The `for (const auto& pred : block->preds())` loop body of
`checkPredecessorsImpl` (GuardAnalyzer.cpp lines 285-302), threading the
`visited` set; `step` is the recursive call at one less fuel. -/
def guardPredLoop (step : Nat → Finset Nat → Bool × Finset Nat) (g : CFG)
    (hz : Hazard) : List Nat → Finset Nat → Bool × Finset Nat
  | [], visited => (false, visited)
  | p :: rest, visited =>
      -- terminator-condition test of this predecessor
      let hit :=
        match g.termCondOf p with
        | some cond => isGuardFor cond hz
        | none => false
      if hit then (true, visited)
      else
        -- "Recurse into predecessors (limited depth)"
        let next := if visited.card < 10 then step p visited else (false, visited)
        if next.1 then (true, next.2)
        else guardPredLoop step g hz rest next.2

/-- `GuardAnalyzerImpl::checkPredecessorsImpl` (GuardAnalyzer.cpp lines
272-305) with explicit fuel. -/
def checkPredecessorsImpl (g : CFG) (hz : Hazard) :
    Nat → Nat → Finset Nat → Bool × Finset Nat
  | 0, _, visited => (false, visited)
  | fuel + 1, block, visited =>
      if block ∈ visited then (false, visited)
      else
        guardPredLoop (checkPredecessorsImpl g hz fuel) g hz
          (g.predsOf block) (insert block visited)

/-- Analogue of `guardPredLoop` for `findGuardImpl` (lines 329-345). -/
def findPredLoop (step : Nat → Finset Nat → Option String × Finset Nat) (g : CFG)
    (hz : Hazard) : List Nat → Finset Nat → Option String × Finset Nat
  | [], visited => (none, visited)
  | p :: rest, visited =>
      let hit :=
        match g.termCondOf p with
        | some cond => if isGuardFor cond hz then some (getConditionText cond) else none
        | none => none
      match hit with
      | some text => (some text, visited)
      | none =>
        let next := if visited.card < 10 then step p visited else (none, visited)
        match next.1 with
        | some text => (some text, next.2)
        | none => findPredLoop step g hz rest next.2

/-- `GuardAnalyzerImpl::findGuardImpl` (GuardAnalyzer.cpp lines 317-348)
with explicit fuel. -/
def findGuardImpl (g : CFG) (hz : Hazard) :
    Nat → Nat → Finset Nat → Option String × Finset Nat
  | 0, _, visited => (none, visited)
  | fuel + 1, block, visited =>
      if block ∈ visited then (none, visited)
      else
        findPredLoop (findGuardImpl g hz fuel) g hz
          (g.predsOf block) (insert block visited)

/-- The hazard-block search shared by `isGuarded` and `findGuard`
(GuardAnalyzer.cpp lines 210-224 and 241-255): the first block containing
a statement whose line equals the hazard line. -/
def findHazardBlock (g : CFG) (hz : Hazard) : Option Nat :=
  match g.blocks.find? (fun b => b.stmtLines.contains hz.line) with
  | some b => some b.blockID
  | none => none

/-- `GuardAnalyzerImpl::isGuarded` (lines 199-228), at fuel 12 (enough for
any execution, by theorem `checkPredecessorsImpl_fuel_stable`). -/
def isGuarded (g : CFG) (hz : Hazard) : Bool :=
  match findHazardBlock g hz with
  | none => false
  | some blockId => (checkPredecessorsImpl g hz 12 blockId ∅).1

/-- `GuardAnalyzerImpl::findGuard` (lines 230-259), at fuel 12. -/
def findGuard (g : CFG) (hz : Hazard) : Option String :=
  match findHazardBlock g hz with
  | none => none
  | some blockId => (findGuardImpl g hz 12 blockId ∅).1

/-! ### Batch processing and the global call graph (main.cpp)

For claim C9 the relevant structure is which accumulator receives the
call-graph records and when.  `FunctionCallback::run` executes on the
worker thread and pushes every extracted `FunctionCall` straight onto the
process-global `globalCallGraph` vector (main.cpp lines 846-852); the
`BatchResult::callGraphEntries` field (line 1392) is never written, and
the coordinator's merge loop (lines 1682-1688) moves only
`batch.results`. -/

/-- `struct FunctionCall` (Axiom.h lines 91-98). -/
structure FunctionCall where
  caller : String := ""
  callee : String := ""
  callee_signature : String := ""
  line : Nat := 0
  arguments : List String := []
  is_virtual : Bool := false
deriving DecidableEq, Repr

/-- `struct ExtractionResult` (Axiom.h lines 186-190). -/
structure ExtractionResult where
  source_file : String := ""
  axioms : List Axiom := []
  errors : List String := []
deriving DecidableEq, Repr

/-- `struct BatchResult` (main.cpp lines 1390-1394). -/
structure BatchResult where
  results : List ExtractionResult := []
  callGraphEntries : List (String × String) := []
  exitCode : Int := 0
deriving DecidableEq, Repr

/-- What one worker's `processBatch` run does with call-graph data, given
the `FunctionCall` lists its `CallGraphExtractor` produces per matched
function: the first component is the returned `BatchResult` (its
`callGraphEntries` field keeps its default empty value — nothing in
`processBatch` writes it), and the second component is the sequence of
records the worker pushes onto the shared `globalCallGraph` vector *during*
extraction, from inside `FunctionCallback::run` (main.cpp lines 846-852),
with no mutex held. -/
def processBatchCallGraph (results : List ExtractionResult)
    (extractedCalls : List (List FunctionCall)) (exitCode : Int) :
    BatchResult × List FunctionCall :=
  ({ results := results, exitCode := exitCode }, extractedCalls.flatten)

/-- `mergeResults` (main.cpp lines 1497-1515). -/
def mergeResults (target : List ExtractionResult)
    (source : List ExtractionResult) : List ExtractionResult :=
  source.foldl
    (fun tgt result =>
      if tgt.any (fun r => r.source_file = result.source_file) then
        tgt.map (fun r =>
          if r.source_file = result.source_file then
            { r with axioms := r.axioms ++ result.axioms }
          else r)
      else tgt ++ [result])
    target

/-- The coordinator's collection loop (main.cpp lines 1682-1688): for each
future, merge `batch.results`; nothing call-graph-related is read from the
`BatchResult`. -/
def coordinatorMerge (batches : List BatchResult) : List ExtractionResult :=
  batches.foldl (fun acc b => mergeResults acc b.results) []

/-! ## Generic helper lemmas -/

theorem forall_mem_ite_singleton {α : Type} {c : Prop} [Decidable c] {x : α}
    {p : α → Prop} (h : p x) : ∀ a ∈ (if c then [x] else []), p a := by
  intro a ha
  split at ha
  · rcases List.mem_singleton.mp ha with rfl; exact h
  · cases ha

theorem forall_mem_ite_pair {α : Type} {c : Prop} [Decidable c] {x y : α}
    {p : α → Prop} (hx : p x) (hy : p y) :
    ∀ a ∈ (if c then [x, y] else []), p a := by
  intro a ha
  split at ha
  · rcases List.mem_cons.mp ha with rfl | ha
    · exact hx
    · rcases List.mem_singleton.mp ha with rfl; exact hy
  · cases ha

/-- An append of a string ending in one character cannot end in a string
ending in a different character. -/
theorem strEndsWith_append_ne_last (qn s t : String)
    (hs : s.data ≠ []) (ht : t.data ≠ [])
    (hne : s.data.getLast? ≠ t.data.getLast?) :
    strEndsWith (qn ++ s) t = false := by
  simp only [strEndsWith, decide_eq_false_iff_not]
  intro hsuf
  rw [String.data_append] at hsuf
  obtain ⟨u, hu⟩ := hsuf
  have h1 : (u ++ t.data).getLast? = t.data.getLast? :=
    List.getLast?_append_of_ne_nil u ht
  have h2 : (qn.data ++ s.data).getLast? = s.data.getLast? :=
    List.getLast?_append_of_ne_nil qn.data hs
  rw [hu, h2] at h1
  exact hne h1

/-- If `t` is no longer than `s`, a suffix test against `qn ++ s` reduces
to a suffix test against `s`. -/
theorem strEndsWith_append_of_le (qn s t : String)
    (hlen : t.data.length ≤ s.data.length)
    (h : strEndsWith (qn ++ s) t = true) : strEndsWith s t = true := by
  simp only [strEndsWith, decide_eq_true_eq] at h ⊢
  rw [String.data_append] at h
  rw [← List.reverse_prefix] at h ⊢
  rw [List.reverse_append] at h
  exact List.prefix_of_prefix_length_le h
    (List.prefix_append s.data.reverse qn.data.reverse) (by simpa using hlen)

theorem strEndsWith_append_self (qn s : String) :
    strEndsWith (qn ++ s) s = true := by
  simp [strEndsWith, String.data_append]

theorem mem_ite_singleton {α : Type} {c : Prop} [Decidable c] {x a : α}
    (h : a ∈ (if c then [x] else [])) : a = x ∧ c := by
  split at h
  · exact ⟨List.mem_singleton.mp h, by assumption⟩
  · cases h

/-- Every element of `extractConstraints` is one of the thirteen named
axioms; for the `.constexpr` axiom the guarding flags are recorded. -/
theorem extractConstraints_mem {ri : ReturnTypeInfo} {f : FunctionInfo}
    {a : Axiom} (ha : a ∈ extractConstraints ri f) :
    a = noexceptAx f ∨ a = nodiscardAx f ∨ a = constMethodAx f ∨
    a = deletedAx f ∨
    (a = constexprAx f ∧ f.is_constexpr = true ∧ f.is_consteval = false) ∨
    a = constevalAx f ∨ a = deprecatedAx f ∨ a = requiresAx f ∨
    a = optionalReturnAx f ∨ a = boolReturnAx f ∨ a = expectedReturnAx f ∨
    a = pointerReturnAx f ∨ a = templateComplexityAx f := by
  simp only [extractConstraints, List.mem_append] at ha
  rcases ha with
    ((((((((((((h | h) | h) | h) | h) | h) | h) | h) | h) | h) | h) | h) | h) <;>
    obtain ⟨rfl, hc⟩ := mem_ite_singleton h <;> (try simp at hc) <;> tauto

theorem templateComplexityAx_id (f : FunctionInfo) :
    (templateComplexityAx f).id =
      f.qualified_name ++ ".complexity.template_instantiation" := by
  unfold templateComplexityAx
  split
  · rfl
  · split <;> rfl

/-! ## Claim theorems -/

/-- **C5.** For every `FunctionInfo` with `is_constexpr = true` and
`is_consteval = true`, the constraint-extractor output contains the axiom
whose id is the qualified name suffixed `.consteval` and contains no axiom
whose id ends in `.constexpr`; a `FunctionInfo` with `is_constexpr = true`
and `is_consteval = false` yields the `.constexpr` axiom. -/
theorem consteval_excludes_constexpr_axiom
    (ri ri' : ReturnTypeInfo) (f f' : FunctionInfo)
    (h1 : f.is_constexpr = true) (h2 : f.is_consteval = true)
    (h1' : f'.is_constexpr = true) (h2' : f'.is_consteval = false) :
    (∃ a ∈ extractConstraints ri f,
        a.id = f.qualified_name ++ ".consteval" ∧
        strEndsWith a.id ".consteval" = true) ∧
    (∀ a ∈ extractConstraints ri f, strEndsWith a.id ".constexpr" = false) ∧
    (∃ a ∈ extractConstraints ri' f',
        a.id = f'.qualified_name ++ ".constexpr" ∧
        strEndsWith a.id ".constexpr" = true) := by
  refine ⟨⟨constevalAx f, ?_, rfl, strEndsWith_append_self _ _⟩, ?_, ?_⟩
  · simp [extractConstraints, h2]
  · intro a ha
    rcases extractConstraints_mem ha with
      h | h | h | h | ⟨h, _, hcv⟩ | h | h | h | h | h | h | h | h
    · exact h ▸ strEndsWith_append_ne_last _ ".noexcept" _ (by decide) (by decide) (by decide)
    · exact h ▸ strEndsWith_append_ne_last _ ".nodiscard" _ (by decide) (by decide) (by decide)
    · exact h ▸ strEndsWith_append_ne_last _ ".const" _ (by decide) (by decide) (by decide)
    · exact h ▸ strEndsWith_append_ne_last _ ".deleted" _ (by decide) (by decide) (by decide)
    · rw [hcv] at h2; cases h2
    · exact h ▸ strEndsWith_append_ne_last _ ".consteval" _ (by decide) (by decide) (by decide)
    · exact h ▸ strEndsWith_append_ne_last _ ".deprecated" _ (by decide) (by decide) (by decide)
    · exact h ▸ strEndsWith_append_ne_last _ ".requires" _ (by decide) (by decide) (by decide)
    · exact h ▸ strEndsWith_append_ne_last _ ".postcond.optional_value" _ (by decide) (by decide) (by decide)
    · exact h ▸ strEndsWith_append_ne_last _ ".postcond.bool_result" _ (by decide) (by decide) (by decide)
    · exact h ▸ strEndsWith_append_ne_last _ ".postcond.expected_value" _ (by decide) (by decide) (by decide)
    · exact h ▸ strEndsWith_append_ne_last _ ".postcond.pointer_nullable" _ (by decide) (by decide) (by decide)
    · subst h
      rw [templateComplexityAx_id]
      exact strEndsWith_append_ne_last _ ".complexity.template_instantiation" _
        (by decide) (by decide) (by decide)
  · refine ⟨constexprAx f', ?_, rfl, strEndsWith_append_self _ _⟩
    simp [extractConstraints, h1', h2']

/-- Witness for C5 at a concrete consteval+constexpr function and a
concrete constexpr-only function. -/
theorem consteval_excludes_constexpr_axiom_witness :
    (∃ a ∈ extractConstraints {}
        { qualified_name := "demo::f", is_constexpr := true, is_consteval := true },
        a.id = "demo::f" ++ ".consteval" ∧
        strEndsWith a.id ".consteval" = true) ∧
    (∀ a ∈ extractConstraints {}
        { qualified_name := "demo::f", is_constexpr := true, is_consteval := true },
        strEndsWith a.id ".constexpr" = false) ∧
    (∃ a ∈ extractConstraints {}
        { qualified_name := "demo::g", is_constexpr := true, is_consteval := false },
        a.id = "demo::g" ++ ".constexpr" ∧
        strEndsWith a.id ".constexpr" = true) :=
  consteval_excludes_constexpr_axiom {} {}
    { qualified_name := "demo::f", is_constexpr := true, is_consteval := true }
    { qualified_name := "demo::g", is_constexpr := true, is_consteval := false }
    rfl rfl rfl rfl

theorem mem_ite_pair {α : Type} {c : Prop} [Decidable c] {x y a : α}
    (h : a ∈ (if c then [x, y] else [])) : (a = x ∨ a = y) ∧ c := by
  split at h
  · refine ⟨?_, by assumption⟩
    rcases List.mem_cons.mp h with rfl | h
    · exact Or.inl rfl
    · exact Or.inr (List.mem_singleton.mp h)
  · cases h

theorem strEndsWith_append_eq_false_of_le (qn s t : String)
    (hlen : t.data.length ≤ s.data.length)
    (hst : strEndsWith s t = false) : strEndsWith (qn ++ s) t = false := by
  cases hq : strEndsWith (qn ++ s) t
  · rfl
  · have h := strEndsWith_append_of_le qn s t hlen hq
    rw [hst] at h
    cases h

/-- Every element of `createMacroAxioms` is one of the eight named axioms;
the baseline axiom occurs only for function-like macros. -/
theorem createMacroAxioms_mem {sem : MacroSemantics} {m : MacroDefinition}
    {a : Axiom} (ha : a ∈ createMacroAxioms sem m) :
    (a = macroDefinitionAx m ∧ m.is_function_like = true) ∨
    a = macroDivisionAx m ∨ a = macroRefCaptureAx m ∨ a = macroDanglingRefAx m ∨
    a = macroTemplateCallAx sem m ∨ a = macroIncompleteAx m ∨
    a = macroLocalVarsAx sem m ∨ a = macroIterationAx m := by
  simp only [createMacroAxioms, List.mem_append] at ha
  rcases ha with (((((h | h) | h) | h) | h) | h) | h
  · obtain ⟨rfl, hc⟩ := mem_ite_singleton h
    exact Or.inl ⟨rfl, by simpa using hc⟩
  · obtain ⟨rfl, _⟩ := mem_ite_singleton h; tauto
  · obtain ⟨h, _⟩ := mem_ite_pair h; tauto
  · obtain ⟨rfl, _⟩ := mem_ite_singleton h; tauto
  · obtain ⟨rfl, _⟩ := mem_ite_singleton h; tauto
  · obtain ⟨rfl, _⟩ := mem_ite_singleton h; tauto
  · obtain ⟨rfl, _⟩ := mem_ite_singleton h; tauto

/-- **C7.** Every function-like macro definition — whatever its body and
semantics regex results — yields the baseline CONSTRAINT axiom with id
suffix `.macro_definition`; object-like macros never yield an axiom with
that suffix. -/
theorem function_like_macro_definition_axiom
    (sem sem' : MacroSemantics) (m m' : MacroDefinition)
    (hfl : m.is_function_like = true) (hol : m'.is_function_like = false) :
    (∃ a ∈ createMacroAxioms sem m,
        a.id = m.name ++ ".macro_definition" ∧
        strEndsWith a.id ".macro_definition" = true ∧
        a.axiom_type = .CONSTRAINT) ∧
    (∀ a ∈ createMacroAxioms sem' m',
        strEndsWith a.id ".macro_definition" = false) := by
  constructor
  · refine ⟨macroDefinitionAx m, ?_, rfl, strEndsWith_append_self _ _, rfl⟩
    simp [createMacroAxioms, hfl]
  · intro a ha
    rcases createMacroAxioms_mem ha with
      ⟨_, hc⟩ | h | h | h | h | h | h | h
    · rw [hc] at hol; cases hol
    · exact h ▸ strEndsWith_append_ne_last _ ".precond.divisor_nonzero" _
        (by decide) (by decide) (by decide)
    · exact h ▸ strEndsWith_append_ne_last _ ".constraint.reference_capture" _
        (by decide) (by decide) (by decide)
    · exact h ▸ strEndsWith_append_ne_last _ ".anti_pattern.dangling_reference" _
        (by decide) (by decide) (by decide)
    · exact h ▸ strEndsWith_append_eq_false_of_le _
        ".complexity.template_instantiation" _ (by decide) (by decide)
    · exact h ▸ strEndsWith_append_eq_false_of_le _
        ".constraint.requires_completion" _ (by decide) (by decide)
    · exact h ▸ strEndsWith_append_ne_last _
        ".postcondition.local_vars_available" _ (by decide) (by decide) (by decide)
    · exact h ▸ strEndsWith_append_eq_false_of_le _
        ".effect.iteration" _ (by decide) (by decide)

/-- Witness for C7 at a concrete function-like macro with a trivial body
and a concrete object-like macro with every pattern flag raised. -/
theorem function_like_macro_definition_axiom_witness :
    (∃ a ∈ createMacroAxioms {} { name := "SQUARE", parameters := ["x"], is_function_like := true },
        a.id = "SQUARE" ++ ".macro_definition" ∧
        strEndsWith a.id ".macro_definition" = true ∧
        a.axiom_type = .CONSTRAINT) ∧
    (∀ a ∈ createMacroAxioms
        { has_reference_capture := true, has_template_call := true
        , template_param := "N", is_incomplete := true
        , has_loop_construct := true, creates_local_vars := true
        , local_vars := ["__tmp"] }
        { name := "OBJLIKE", has_division := true, is_function_like := false },
        strEndsWith a.id ".macro_definition" = false) :=
  function_like_macro_definition_axiom {}
    { has_reference_capture := true, has_template_call := true
    , template_param := "N", is_incomplete := true
    , has_loop_construct := true, creates_local_vars := true
    , local_vars := ["__tmp"] }
    { name := "SQUARE", parameters := ["x"], is_function_like := true }
    { name := "OBJLIKE", has_division := true, is_function_like := false }
    rfl rfl

/-- **C10.** An unguarded CAST hazard (reinterpret-style cast) is emitted
as a PRECONDITION axiom whose id suffix is `bounds_check` — the same
suffix an ARRAY_ACCESS hazard gets — and whose content and formal_spec are
left empty, because the emission chain handles only DIVISION,
POINTER_DEREF and ARRAY_ACCESS; the detector flags every
`reinterpret_cast` as a CAST hazard with `has_guard = false`. -/
theorem cast_hazard_bounds_check_emission (info : FunctionInfo)
    (h harr : Hazard) (hc : h.type = .CAST) (hg : h.has_guard = false)
    (hat : harr.type = .ARRAY_ACCESS) :
    hazardAxioms info [h] = [hazardAxiom info h] ∧
    (hazardAxiom info h).id = info.qualified_name ++ ".precond.bounds_check" ∧
    strEndsWith (hazardAxiom info h).id "bounds_check" = true ∧
    (hazardAxiom info h).content = "" ∧
    (hazardAxiom info h).formal_spec = "" ∧
    (hazardAxiom info h).axiom_type = .PRECONDITION ∧
    (hazardAxiom info h).has_guard = some false ∧
    (hazardAxiom info h).guard_expression = none ∧
    (hazardAxiom info harr).id = info.qualified_name ++ ".precond.bounds_check" ∧
    (∀ (sub : Expr) (line : Nat), hazardsOfExpr (.reinterpretCast sub line) =
      { type := .CAST
      , expression := getExprText (.reinterpretCast sub line)
      , operand := getExprText sub
      , line := line } :: hazardsOfExpr sub) := by
  have hlit : (".precond." ++ "bounds_check" : String) = ".precond.bounds_check" := rfl
  refine ⟨?_, ?_, ?_, ?_, ?_, rfl, rfl, rfl, ?_, fun sub line => rfl⟩
  · simp [hazardAxioms, hg]
  · simp [hazardAxiom, hc, String.append_assoc, hlit]
  · have hid : (hazardAxiom info h).id =
        info.qualified_name ++ ".precond." ++ "bounds_check" := by
      simp [hazardAxiom, hc]
    rw [hid]
    exact strEndsWith_append_self (info.qualified_name ++ ".precond.") "bounds_check"
  · simp [hazardAxiom, hc]
  · simp [hazardAxiom, hc]
  · simp [hazardAxiom, hat, String.append_assoc, hlit]

/-- Witness for C10 at a concrete CAST hazard and a concrete ARRAY_ACCESS
hazard. -/
theorem cast_hazard_bounds_check_emission_witness :
    hazardAxioms { qualified_name := "demo::h" }
        [{ type := .CAST, expression := "reinterpret_cast<T>(p)", operand := "p", line := 5 }] =
      [hazardAxiom { qualified_name := "demo::h" }
        { type := .CAST, expression := "reinterpret_cast<T>(p)", operand := "p", line := 5 }] ∧
    (hazardAxiom { qualified_name := "demo::h" }
      { type := .CAST, expression := "reinterpret_cast<T>(p)", operand := "p", line := 5 }).id =
      "demo::h" ++ ".precond.bounds_check" ∧
    strEndsWith (hazardAxiom { qualified_name := "demo::h" }
      { type := .CAST, expression := "reinterpret_cast<T>(p)", operand := "p", line := 5 }).id
      "bounds_check" = true ∧
    (hazardAxiom { qualified_name := "demo::h" }
      { type := .CAST, expression := "reinterpret_cast<T>(p)", operand := "p", line := 5 }).content = "" ∧
    (hazardAxiom { qualified_name := "demo::h" }
      { type := .CAST, expression := "reinterpret_cast<T>(p)", operand := "p", line := 5 }).formal_spec = "" ∧
    (hazardAxiom { qualified_name := "demo::h" }
      { type := .CAST, expression := "reinterpret_cast<T>(p)", operand := "p", line := 5 }).axiom_type = .PRECONDITION ∧
    (hazardAxiom { qualified_name := "demo::h" }
      { type := .CAST, expression := "reinterpret_cast<T>(p)", operand := "p", line := 5 }).has_guard = some false ∧
    (hazardAxiom { qualified_name := "demo::h" }
      { type := .CAST, expression := "reinterpret_cast<T>(p)", operand := "p", line := 5 }).guard_expression = none ∧
    (hazardAxiom { qualified_name := "demo::h" }
      { type := .ARRAY_ACCESS, expression := "arr[i]", operand := "i", line := 7 }).id =
      "demo::h" ++ ".precond.bounds_check" ∧
    (∀ (sub : Expr) (line : Nat), hazardsOfExpr (.reinterpretCast sub line) =
      { type := .CAST
      , expression := getExprText (.reinterpretCast sub line)
      , operand := getExprText sub
      , line := line } :: hazardsOfExpr sub) :=
  cast_hazard_bounds_check_emission { qualified_name := "demo::h" }
    { type := .CAST, expression := "reinterpret_cast<T>(p)", operand := "p", line := 5 }
    { type := .ARRAY_ACCESS, expression := "arr[i]", operand := "i", line := 7 }
    rfl rfl rfl

/-- The body of `int f(int a) { return a / 2; }`. -/
def fDiv2Body : Stmt :=
  .compound [.returnStmt (some (.binary .Div (.declRef "a") (.intLit 2) 1))]

/-- The body of `int divide(int a, int b) { return a / b; }`. -/
def divideBody : Stmt :=
  .compound [.returnStmt (some (.binary .Div (.declRef "a") (.declRef "b") 1))]

/-- **C4 (counterexample).** The claim says a division by *any* provably
non-zero literal — integer or floating — is skipped; but the detector only
tests `IntegerLiteral`, so `x / 2.0` (a `FloatingLiteral` divisor with
value 2 ≠ 0) still materializes a DIVISION hazard. -/
theorem literal_divisor_float_counterexample :
    (2 : ℚ) ≠ 0 ∧
    (detectHazards (some (.compound
      [.returnStmt (some (.binary .Div (.declRef "x") (.floatLit 2) 1))]))).map
      (fun h => h.type) = [.DIVISION] := by
  constructor
  · norm_num
  · rfl

/-- **C4 (amended).** Only a divisor that is a *non-zero integer literal*
(after stripping parens/implicit casts) suppresses the DIVISION hazard; a
floating literal divisor always materializes one.  `int f(int a){return
a/2;}` yields zero hazards and `int divide(int a,int b){return a/b;}`
yields exactly one DIVISION hazard. -/
theorem literal_divisor_elision_amended
    (op : BinOpcode) (l r : Expr) (line : Nat) (v : Int)
    (hop : op = .Div ∨ op = .Rem)
    (hlit : ignoreParenImpCasts r = .intLit v) (hv : v ≠ 0) :
    hazardsOfExpr (.binary op l r line) = hazardsOfExpr l ++ hazardsOfExpr r ∧
    (∀ (l' : Expr) (line' : Nat) (q : ℚ),
      hazardsOfExpr (.binary .Div l' (.floatLit q) line') =
        { type := .DIVISION
        , expression := getExprText (.binary .Div l' (.floatLit q) line')
        , operand := getExprText (.floatLit q)
        , line := line' } :: hazardsOfExpr l') ∧
    detectHazards (some fDiv2Body) = [] ∧
    (detectHazards (some divideBody)).map (fun h => h.type) = [.DIVISION] := by
  refine ⟨?_, fun l' line' q => by simp [hazardsOfExpr, ignoreParenImpCasts], by rfl, by rfl⟩
  simp only [hazardsOfExpr, hlit]
  simp [hv]

/-- Witness for C4's amended theorem at `a / 2`. -/
theorem literal_divisor_elision_amended_witness :
    ((BinOpcode.Div = BinOpcode.Div ∨ BinOpcode.Div = BinOpcode.Rem) ∧
      ignoreParenImpCasts (.intLit 2) = Expr.intLit 2 ∧ (2 : Int) ≠ 0) ∧
    (hazardsOfExpr (.binary .Div (.declRef "a") (.intLit 2) 1) =
      hazardsOfExpr (.declRef "a") ++ hazardsOfExpr (.intLit 2) ∧
    (∀ (l' : Expr) (line' : Nat) (q : ℚ),
      hazardsOfExpr (.binary .Div l' (.floatLit q) line') =
        { type := .DIVISION
        , expression := getExprText (.binary .Div l' (.floatLit q) line')
        , operand := getExprText (.floatLit q)
        , line := line' } :: hazardsOfExpr l') ∧
    detectHazards (some fDiv2Body) = [] ∧
    (detectHazards (some divideBody)).map (fun h => h.type) = [.DIVISION]) :=
  ⟨⟨Or.inl rfl, rfl, by decide⟩,
   literal_divisor_elision_amended .Div (.declRef "a") (.intLit 2) 1 2
     (Or.inl rfl) rfl (by decide)⟩

set_option maxRecDepth 8192 in
/-- **C2 (code evaluated at the failing input).** For a DIVISION hazard on
operand `b`, the conjunct `b != 0` alone is recognized as a guard, but the
condition `b != 0 && x > 0` is not: `checkCondition` dispatches every
`BinaryOperator` — including `&&` — to `checkBinaryOp` and returns its
result, so the "Logical AND: combine guards" block (GuardAnalyzer.cpp
lines 100-105) is unreachable and the `&&` condition yields `false`. -/
theorem land_guard_condition_not_recognized :
    checkCondition .DIVISION "b" (.binary .NE (.declRef "b") (.intLit 0) 2) = true ∧
    checkCondition .DIVISION "b"
      (.binary .LAnd (.binary .NE (.declRef "b") (.intLit 0) 2)
                     (.binary .GTcmp (.declRef "x") (.intLit 0) 2) 2) = false := by
  constructor <;> decide

/-- **C9 (code evaluated at the failing input).** During a worker's
`processBatch` run the extracted call-graph records are appended to the
shared global accumulator from inside `FunctionCallback::run` (second
component non-empty for a batch that extracts one call), while the
returned `BatchResult.callGraphEntries` — the only call-graph channel the
coordinator could merge post-hoc — is always empty. -/
theorem call_graph_appended_during_extraction :
    (∀ (results : List ExtractionResult)
       (extractedCalls : List (List FunctionCall)) (exitCode : Int),
       (processBatchCallGraph results extractedCalls exitCode).1.callGraphEntries = []) ∧
    (processBatchCallGraph [] [[{ caller := "demo::main", callee := "demo::helper" }]] 0).2 ≠ [] := by
  exact ⟨fun _ _ _ => rfl, by decide⟩

/-- Inverting the call-frequency fold: every produced effect comes from
one entry of the call table with a non-empty call list. -/
theorem genCF_foldl_mem {loopLines : List Nat}
    {entries : List (String × List CallInfo)} {acc : List Effect} {e : Effect}
    (he : e ∈ entries.foldl (genCFStep loopLines) acc) :
    e ∈ acc ∨ ∃ p ∈ entries, ∃ c0 rest, p.2 = c0 :: rest ∧
      e = callFrequencyEffect loopLines p.1 p.2 c0 := by
  induction entries generalizing acc with
  | nil => exact Or.inl he
  | cons p rest ih =>
    rcases ih he with hacc | ⟨q, hq, c0, r, hr, rfl⟩
    · unfold genCFStep at hacc
      split at hacc
      · exact Or.inl hacc
      · next c0' tail heq =>
          rcases List.mem_append.mp hacc with hacc | hacc
          · exact Or.inl hacc
          · rcases List.mem_singleton.mp hacc with rfl
            exact Or.inr ⟨p, List.mem_cons_self p rest, c0', tail, heq, rfl⟩
    · exact Or.inr ⟨q, List.mem_cons_of_mem p hq, c0, r, hr, rfl⟩

/-- **C6.** Every synthesized CALL_FREQUENCY effect comes from one
distinct-callee entry of the call table, carries `call_count` equal to the
number of recorded call sites, and has `is_cached = true` exactly when
there is precisely one call site and that call's result was stored; in
particular two stored calls to `get_value` yield `call_count = 2` and
`is_cached = false`, while a single stored call yields `is_cached = true`. -/
theorem call_frequency_cached_iff_single_stored_call
    (st : EffectVisitorState) (e : Effect)
    (he : e ∈ generateCallFrequencyEffects st) :
    (e.kind = .CALL_FREQUENCY ∧ e.confidence = 0.90 ∧
      ∃ key calls c0 rest, (key, calls) ∈ st.call_frequencies ∧
        calls = c0 :: rest ∧
        e.target = key ∧ e.call_count = calls.length ∧
        (e.is_cached = true ↔ calls.length = 1 ∧ c0.result_is_cached = true)) ∧
    (detectEffects {}
        [.freeCall "get_value" "get_value" "get_value()" none 2 .varDeclParent,
         .freeCall "get_value" "get_value" "get_value()" none 3 .varDeclParent]).map
      (fun ef => (ef.kind, ef.call_count, ef.is_cached)) =
      [(.CALL_FREQUENCY, 2, false)] ∧
    (detectEffects {}
        [.freeCall "get_value" "get_value" "get_value()" none 2 .varDeclParent]).map
      (fun ef => (ef.kind, ef.call_count, ef.is_cached)) =
      [(.CALL_FREQUENCY, 1, true)] := by
  refine ⟨?_, by rfl, by rfl⟩
  rcases genCF_foldl_mem he with h | ⟨⟨key, calls⟩, hmem, c0, rest, hcalls, rfl⟩
  · cases h
  · refine ⟨rfl, rfl, key, calls, c0, rest, hmem, hcalls, rfl, rfl, ?_⟩
    simp [callFrequencyEffect, Bool.and_eq_true, beq_iff_eq]

/-- Witness for C6 on a concrete call table with two entries. -/
theorem call_frequency_cached_iff_single_stored_call_witness :
    ((callFrequencyEffect [] "demo::get"
        [{ expression := "get()", line := 4, result_is_cached := true }]
        { expression := "get()", line := 4, result_is_cached := true }).kind
        = .CALL_FREQUENCY ∧
      (callFrequencyEffect [] "demo::get"
        [{ expression := "get()", line := 4, result_is_cached := true }]
        { expression := "get()", line := 4, result_is_cached := true }).confidence = 0.90 ∧
      ∃ key calls c0 rest,
        (key, calls) ∈ ({ call_frequencies :=
          [("demo::get", [{ expression := "get()", line := 4, result_is_cached := true }])] } :
            EffectVisitorState).call_frequencies ∧
        calls = c0 :: rest ∧
        (callFrequencyEffect [] "demo::get"
          [{ expression := "get()", line := 4, result_is_cached := true }]
          { expression := "get()", line := 4, result_is_cached := true }).target = key ∧
        (callFrequencyEffect [] "demo::get"
          [{ expression := "get()", line := 4, result_is_cached := true }]
          { expression := "get()", line := 4, result_is_cached := true }).call_count = calls.length ∧
        ((callFrequencyEffect [] "demo::get"
          [{ expression := "get()", line := 4, result_is_cached := true }]
          { expression := "get()", line := 4, result_is_cached := true }).is_cached = true ↔
          calls.length = 1 ∧ c0.result_is_cached = true)) ∧
    (detectEffects {}
        [.freeCall "get_value" "get_value" "get_value()" none 2 .varDeclParent,
         .freeCall "get_value" "get_value" "get_value()" none 3 .varDeclParent]).map
      (fun ef => (ef.kind, ef.call_count, ef.is_cached)) =
      [(.CALL_FREQUENCY, 2, false)] ∧
    (detectEffects {}
        [.freeCall "get_value" "get_value" "get_value()" none 2 .varDeclParent]).map
      (fun ef => (ef.kind, ef.call_count, ef.is_cached)) =
      [(.CALL_FREQUENCY, 1, true)] :=
  call_frequency_cached_iff_single_stored_call
    { call_frequencies :=
        [("demo::get", [{ expression := "get()", line := 4, result_is_cached := true }])] }
    (callFrequencyEffect [] "demo::get"
      [{ expression := "get()", line := 4, result_is_cached := true }]
      { expression := "get()", line := 4, result_is_cached := true })
    (List.mem_singleton_self _)

/-- Every hazard the expression visitor materializes keeps the default
`has_guard = false` (the visitor never assigns the field). -/
theorem hazardsOfExpr_has_guard_false (e : Expr) :
    ∀ h ∈ hazardsOfExpr e, h.has_guard = false := by
  induction e with
  | intLit v => intro h hh; cases hh
  | floatLit v => intro h hh; cases hh
  | nullPtrLit => intro h hh; cases hh
  | declRef n => intro h hh; cases hh
  | thisExpr => intro h hh; cases hh
  | paren s ih => exact ih
  | impCast k s ih => exact ih
  | unary op s line ih =>
      intro h hh
      simp only [hazardsOfExpr, List.mem_append] at hh
      rcases hh with hh | hh
      · split at hh
        · rcases List.mem_singleton.mp hh with rfl; rfl
        · cases hh
      · exact ih h hh
  | binary op l r line ihl ihr =>
      intro h hh
      simp only [hazardsOfExpr, List.mem_append] at hh
      rcases hh with (hh | hh) | hh
      · split at hh
        · rcases List.mem_singleton.mp hh with rfl; rfl
        · cases hh
      · exact ihl h hh
      · exact ihr h hh
  | memberAccess b m arrow line ihb =>
      intro h hh
      simp only [hazardsOfExpr, List.mem_append] at hh
      rcases hh with hh | hh
      · split at hh
        · rcases List.mem_singleton.mp hh with rfl; rfl
        · cases hh
      · exact ihb h hh
  | arraySub b i line ihb ihi =>
      intro h hh
      simp only [hazardsOfExpr, List.mem_append] at hh
      rcases hh with (hh | hh) | hh
      · rcases List.mem_singleton.mp hh with rfl; rfl
      · exact ihb h hh
      · exact ihi h hh
  | reinterpretCast s line ih =>
      intro h hh
      simp only [hazardsOfExpr, List.mem_append] at hh
      rcases hh with hh | hh
      · rcases List.mem_singleton.mp hh with rfl; rfl
      · exact ih h hh

theorem stmtHazards_has_guard_false (s0 : Stmt) :
    ∀ h ∈ stmtHazards s0, h.has_guard = false := by
  refine stmtHazards.induct
    (fun s => ∀ h ∈ stmtHazards s, h.has_guard = false)
    (fun ss => ∀ h ∈ stmtListHazards ss, h.has_guard = false)
    ?_ ?_ ?_ ?_ ?_ ?_ ?_ ?_ s0
  · intro e
    simpa only [stmtHazards] using hazardsOfExpr_has_guard_false e
  · intro h hh; simp only [stmtHazards] at hh; cases hh
  · intro e
    simpa only [stmtHazards] using hazardsOfExpr_has_guard_false e
  · intro ss ih
    simpa only [stmtHazards] using ih
  · intro c t ih
    intro h hh
    simp only [stmtHazards, List.mem_append] at hh
    rcases hh with hh | hh
    · exact hazardsOfExpr_has_guard_false c h hh
    · exact ih h hh
  · intro c t el iht ihe
    intro h hh
    simp only [stmtHazards, List.mem_append] at hh
    rcases hh with (hh | hh) | hh
    · exact hazardsOfExpr_has_guard_false c h hh
    · exact iht h hh
    · exact ihe h hh
  · intro h hh; simp only [stmtListHazards] at hh; cases hh
  · intro s rest ihs ihrest
    intro h hh
    simp only [stmtListHazards, List.mem_append] at hh
    rcases hh with hh | hh
    · exact ihs h hh
    · exact ihrest h hh

/-! Per-family `has_guard` facts: no emitter ever sets `has_guard = true`. -/

theorem templateComplexityAx_has_guard (f : FunctionInfo) :
    (templateComplexityAx f).has_guard = none := by
  unfold templateComplexityAx
  split
  · rfl
  · split <;> rfl

theorem extractConstraints_has_guard (ri : ReturnTypeInfo) (f : FunctionInfo) :
    ∀ a ∈ extractConstraints ri f, a.has_guard = none := by
  intro a ha
  rcases extractConstraints_mem ha with
    h | h | h | h | ⟨h, _, _⟩ | h | h | h | h | h | h | h | h <;> subst h
  all_goals first
    | rfl
    | exact templateComplexityAx_has_guard f

theorem effectAxiom_has_guard (info : FunctionInfo) (e : Effect) :
    (effectAxiom info e).has_guard = none := by
  cases hk : e.kind <;> simp [effectAxiom, hk]

theorem createMacroAxioms_has_guard (sem : MacroSemantics) (m : MacroDefinition) :
    ∀ a ∈ createMacroAxioms sem m, a.has_guard ≠ some true := by
  intro a ha
  rcases createMacroAxioms_mem ha with
    ⟨h, _⟩ | h | h | h | h | h | h | h <;> subst h <;> simp [macroDefinitionAx,
      macroDivisionAx, macroRefCaptureAx, macroDanglingRefAx,
      macroTemplateCallAx, macroIncompleteAx, macroLocalVarsAx, macroIterationAx]

theorem classAxioms_has_guard (c : ClassDeclInfo) :
    ∀ a ∈ classAxioms c, a.has_guard = none := by
  simp only [classAxioms]
  refine List.forall_mem_append.mpr
    ⟨List.forall_mem_append.mpr ⟨List.forall_mem_append.mpr ⟨?_, ?_⟩, ?_⟩, ?_⟩ <;>
    exact forall_mem_ite_singleton rfl

/-- **C3.** The extraction pipeline never consults the guard analyzer:
every hazard the detector materializes keeps the default
`has_guard = false`, so the per-hazard emission filter passes all of them
and each one yields a PRECONDITION axiom with `has_guard = some false` and
no guard expression; and no emission family ever attaches
`has_guard = some true` to an axiom. -/
theorem guard_analyzer_never_invoked (info : FunctionInfo) (body : Stmt) :
    (∀ h ∈ detectHazards (some body), h.has_guard = false) ∧
    (hazardAxioms info (detectHazards (some body))).length
      = (detectHazards (some body)).length ∧
    (∀ a ∈ hazardAxioms info (detectHazards (some body)),
        a.axiom_type = .PRECONDITION ∧ a.has_guard = some false ∧
        a.guard_expression = none) ∧
    (∀ ri f, ∀ a ∈ extractConstraints ri f, a.has_guard ≠ some true) ∧
    (∀ (info' : FunctionInfo) (hz : List Hazard),
        ∀ a ∈ hazardAxioms info' hz, a.has_guard ≠ some true) ∧
    (∀ (info' : FunctionInfo) (e : Effect),
        (effectAxiom info' e).has_guard ≠ some true) ∧
    (∀ sem me, ∀ a ∈ createMacroAxioms sem me, a.has_guard ≠ some true) ∧
    (∀ c, ∀ a ∈ classAxioms c, a.has_guard ≠ some true) ∧
    (∀ n q hd l sc, ∀ a ∈ enumAxioms n q hd l sc, a.has_guard ≠ some true) ∧
    (∀ hd cs msg l, ∀ a ∈ staticAssertAxioms hd cs msg l, a.has_guard ≠ some true) ∧
    (∀ n q hd cs l, ∀ a ∈ conceptAxioms n q hd cs l, a.has_guard ≠ some true) ∧
    (∀ n q hd tp l, ∀ a ∈ typeAliasAxioms n q hd tp l, a.has_guard ≠ some true) ∧
    (∀ asserts, ∀ a ∈ testToAxioms asserts, a.has_guard ≠ some true) := by
  have hfalse : ∀ h ∈ detectHazards (some body), h.has_guard = false :=
    stmtHazards_has_guard_false body
  have hfilter : (detectHazards (some body)).filter (fun h => !h.has_guard)
      = detectHazards (some body) :=
    List.filter_eq_self.mpr (fun h hh => by rw [hfalse h hh]; rfl)
  refine ⟨hfalse, ?_, ?_, ?_, ?_, ?_, ?_, ?_, ?_, ?_, ?_, ?_, ?_⟩
  · rw [hazardAxioms, hfilter, List.length_map]
  · intro a ha
    rw [hazardAxioms, hfilter] at ha
    obtain ⟨h, _, rfl⟩ := List.mem_map.mp ha
    exact ⟨rfl, rfl, rfl⟩
  · intro ri f a ha
    rw [extractConstraints_has_guard ri f a ha]
    simp
  · intro info' hz a ha
    obtain ⟨h, _, rfl⟩ := List.mem_map.mp ha
    simp [hazardAxiom]
  · intro info' e
    rw [effectAxiom_has_guard]
    simp
  · exact createMacroAxioms_has_guard
  · intro c a ha
    rw [classAxioms_has_guard c a ha]
    simp
  · intro n q hd l sc a ha
    rcases mem_ite_singleton ha with ⟨rfl, _⟩
    simp [enumAxioms]
  · intro hd cs msg l a ha
    rcases List.mem_singleton.mp ha with rfl
    simp
  · intro n q hd cs l a ha
    rcases List.mem_singleton.mp ha with rfl
    simp
  · intro n q hd tp l a ha
    rcases mem_ite_singleton ha with ⟨rfl, _⟩
    simp [typeAliasAxioms]
  · intro asserts a ha
    obtain ⟨s, _, rfl⟩ := List.mem_map.mp ha
    simp

/-- Witness for C3 at the concrete body `return a / b;`. -/
theorem guard_analyzer_never_invoked_witness :
    (∀ h ∈ detectHazards (some divideBody), h.has_guard = false) ∧
    (hazardAxioms { qualified_name := "demo::divide" } (detectHazards (some divideBody))).length
      = (detectHazards (some divideBody)).length ∧
    (∀ a ∈ hazardAxioms { qualified_name := "demo::divide" } (detectHazards (some divideBody)),
        a.axiom_type = .PRECONDITION ∧ a.has_guard = some false ∧
        a.guard_expression = none) ∧
    (∀ ri f, ∀ a ∈ extractConstraints ri f, a.has_guard ≠ some true) ∧
    (∀ (info' : FunctionInfo) (hz : List Hazard),
        ∀ a ∈ hazardAxioms info' hz, a.has_guard ≠ some true) ∧
    (∀ (info' : FunctionInfo) (e : Effect),
        (effectAxiom info' e).has_guard ≠ some true) ∧
    (∀ sem me, ∀ a ∈ createMacroAxioms sem me, a.has_guard ≠ some true) ∧
    (∀ c, ∀ a ∈ classAxioms c, a.has_guard ≠ some true) ∧
    (∀ n q hd l sc, ∀ a ∈ enumAxioms n q hd l sc, a.has_guard ≠ some true) ∧
    (∀ hd cs msg l, ∀ a ∈ staticAssertAxioms hd cs msg l, a.has_guard ≠ some true) ∧
    (∀ n q hd cs l, ∀ a ∈ conceptAxioms n q hd cs l, a.has_guard ≠ some true) ∧
    (∀ n q hd tp l, ∀ a ∈ typeAliasAxioms n q hd tp l, a.has_guard ≠ some true) ∧
    (∀ asserts, ∀ a ∈ testToAxioms asserts, a.has_guard ≠ some true) :=
  guard_analyzer_never_invoked { qualified_name := "demo::divide" } divideBody

/-! ### The confidence/provenance invariant (claim C1) -/

/-- EXPLICIT provenance carries confidence exactly 1; PATTERN provenance
carries confidence strictly below 1. -/
def confInv (a : Axiom) : Prop :=
  (a.source_type = .EXPLICIT → a.confidence = 1) ∧
  (a.source_type = .PATTERN → a.confidence < 1)

theorem templateComplexityAx_confInv (f : FunctionInfo) :
    confInv (templateComplexityAx f) := by
  unfold templateComplexityAx
  split
  · exact ⟨fun h => (by cases h), fun _ => (by norm_num)⟩
  · split
    · exact ⟨fun h => (by cases h), fun _ => (by norm_num)⟩
    · exact ⟨fun h => (by cases h), fun _ => (by norm_num)⟩

theorem extractConstraints_confInv (ri : ReturnTypeInfo) (f : FunctionInfo) :
    ∀ a ∈ extractConstraints ri f, confInv a := by
  intro a ha
  rcases extractConstraints_mem ha with
    h | h | h | h | ⟨h, _, _⟩ | h | h | h | h | h | h | h | h <;> subst h
  all_goals first
    | exact templateComplexityAx_confInv f
    | exact ⟨fun _ => rfl, fun h => (by cases h)⟩
    | exact ⟨fun h => (by cases h), fun _ => (by
        norm_num [optionalReturnAx, boolReturnAx, expectedReturnAx, pointerReturnAx])⟩

/-- Each visitor step only ever appends effects with confidence 0.95 or
0.90 (every `Effect` literal in EffectDetector.cpp carries one of the
two). -/
theorem visitEvent_effects_confidence (p : EffectVisitorParams)
    (st : EffectVisitorState) (ev : BodyEvent) :
    ∀ e ∈ (visitEvent p st ev).effects,
      e ∈ st.effects ∨ e.confidence = 0.95 ∨ e.confidence = 0.90 := by
  intro e he
  cases ev <;> simp only [visitEvent] at he <;>
    repeat
      first
        | exact Or.inl he
        | split at he
        | (rcases List.mem_append.mp he with he | he)
        | (rcases List.mem_singleton.mp he with rfl
           right
           first | (left; rfl) | (right; rfl))

/-- Folding the visitor over any event sequence preserves the confidence
range of accumulated effects. -/
theorem foldl_visitEvent_effects_confidence (p : EffectVisitorParams)
    (events : List BodyEvent) :
    ∀ st : EffectVisitorState,
      (∀ e ∈ st.effects, e.confidence = 0.95 ∨ e.confidence = 0.90) →
      ∀ e ∈ (events.foldl (visitEvent p) st).effects,
        e.confidence = 0.95 ∨ e.confidence = 0.90 := by
  induction events with
  | nil => exact fun st hst => hst
  | cons ev rest ih =>
      intro st hst
      refine ih (visitEvent p st ev) ?_
      intro e he
      rcases visitEvent_effects_confidence p st ev e he with h | h
      · exact hst e h
      · exact h

/-- Every effect the detector returns carries confidence 0.95 or 0.90. -/
theorem detectEffects_confidence (p : EffectVisitorParams)
    (events : List BodyEvent) :
    ∀ e ∈ detectEffects p events, e.confidence = 0.95 ∨ e.confidence = 0.90 := by
  intro e he
  rcases List.mem_append.mp he with he | he
  · exact foldl_visitEvent_effects_confidence p events {} (by intro e h; cases h) e he
  · rcases genCF_foldl_mem he with h | ⟨q, _, c0, r, _, rfl⟩
    · cases h
    · exact Or.inr rfl

/-- Every test assertion is built with confidence 0.85 (fatal) or 0.80
(non-fatal). -/
theorem mkAssertion_confidence (fs : FrameworkSite) :
    (mkAssertion fs).confidence = 0.85 ∨ (mkAssertion fs).confidence = 0.80 := by
  cases fs <;>
    simp only [mkAssertion, mkCatch2Assertion, mkGTestAssertion,
      mkBoostTestAssertion] <;>
    split <;> first | (left; rfl) | (right; rfl)

/-- **C1.** For every axiom emitted by the pipeline — constraint, hazard,
effect, macro, class, enum, static_assert, concept, type-alias and
test-assertion axioms alike — EXPLICIT provenance carries confidence
exactly 1 and PATTERN provenance carries confidence strictly less than 1
(`confInv`). -/
theorem emitted_axiom_confidence_invariant :
    (∀ ri f, ∀ a ∈ extractConstraints ri f, confInv a) ∧
    (∀ (info : FunctionInfo) (hz : List Hazard),
        ∀ a ∈ hazardAxioms info hz, confInv a) ∧
    (∀ (info : FunctionInfo) (p : EffectVisitorParams) (events : List BodyEvent),
        ∀ a ∈ effectAxioms info (detectEffects p events), confInv a) ∧
    (∀ sem m, ∀ a ∈ createMacroAxioms sem m, confInv a) ∧
    (∀ c, ∀ a ∈ classAxioms c, confInv a) ∧
    (∀ n q hd l sc, ∀ a ∈ enumAxioms n q hd l sc, confInv a) ∧
    (∀ hd cs msg l, ∀ a ∈ staticAssertAxioms hd cs msg l, confInv a) ∧
    (∀ n q hd cs l, ∀ a ∈ conceptAxioms n q hd cs l, confInv a) ∧
    (∀ n q hd tp l, ∀ a ∈ typeAliasAxioms n q hd tp l, confInv a) ∧
    (∀ sites : List FrameworkSite,
        ∀ a ∈ testToAxioms (sites.map mkAssertion), confInv a) := by
  refine ⟨extractConstraints_confInv, ?_, ?_, ?_, ?_, ?_, ?_, ?_, ?_, ?_⟩
  · intro info hz a ha
    obtain ⟨h, _, rfl⟩ := List.mem_map.mp ha
    exact ⟨fun hcon => (by cases hcon), fun _ => (by norm_num [hazardAxiom])⟩
  · intro info p events a ha
    obtain ⟨e, hmem, rfl⟩ := List.mem_map.mp ha
    have hc := detectEffects_confidence p events e hmem
    have hconf : (effectAxiom info e).confidence = e.confidence := by
      cases hk : e.kind <;> simp [effectAxiom, hk]
    have hsrc : (effectAxiom info e).source_type = .PATTERN := by
      cases hk : e.kind <;> simp [effectAxiom, hk]
    refine ⟨fun hcon => ?_, fun _ => ?_⟩
    · rw [hsrc] at hcon; cases hcon
    · rw [hconf]
      rcases hc with h | h <;> rw [h] <;> norm_num
  · intro sem m a ha
    rcases createMacroAxioms_mem ha with
      ⟨h, _⟩ | h | h | h | h | h | h | h <;> subst h
    all_goals first
      | exact ⟨fun _ => rfl, fun h => (by cases h)⟩
      | exact ⟨fun h => (by cases h), fun _ => (by
          norm_num [macroDivisionAx, macroDanglingRefAx, macroTemplateCallAx,
            macroLocalVarsAx, macroIterationAx])⟩
  · intro c
    simp only [classAxioms]
    refine List.forall_mem_append.mpr
      ⟨List.forall_mem_append.mpr ⟨List.forall_mem_append.mpr ⟨?_, ?_⟩, ?_⟩, ?_⟩ <;>
      exact forall_mem_ite_singleton ⟨fun _ => rfl, fun h => (by cases h)⟩
  · intro n q hd l sc a ha
    rcases mem_ite_singleton ha with ⟨rfl, _⟩
    exact ⟨fun _ => rfl, fun h => (by cases h)⟩
  · intro hd cs msg l a ha
    rcases List.mem_singleton.mp ha with rfl
    exact ⟨fun _ => rfl, fun h => (by cases h)⟩
  · intro n q hd cs l a ha
    rcases List.mem_singleton.mp ha with rfl
    exact ⟨fun _ => rfl, fun h => (by cases h)⟩
  · intro n q hd tp l a ha
    rcases mem_ite_singleton ha with ⟨rfl, _⟩
    exact ⟨fun _ => rfl, fun h => (by cases h)⟩
  · intro sites a ha
    obtain ⟨t, hmem, rfl⟩ := List.mem_map.mp ha
    obtain ⟨fs, _, rfl⟩ := List.mem_map.mp hmem
    refine ⟨fun hcon => (by cases hcon), fun _ => ?_⟩
    show (mkAssertion fs).confidence < 1
    rcases mkAssertion_confidence fs with h | h <;> rw [h] <;> norm_num

/-- Witness for C1: the invariant holds at the concrete baseline axiom of
a concrete function-like macro. -/
theorem emitted_axiom_confidence_invariant_witness :
    confInv (macroDefinitionAx { name := "MAC", is_function_like := true }) :=
  emitted_axiom_confidence_invariant.2.2.2.1 {}
    { name := "MAC", is_function_like := true }
    (macroDefinitionAx { name := "MAC", is_function_like := true })
    (by simp [createMacroAxioms])

/-! ### Boundedness of the guard analyzer's predecessor walk (claim C8)

The C++ recursion has no structural measure; its termination argument is:
a revisited block returns immediately, and recursion is gated on
`visited.size() < 10`, so the visited set — which only grows — bounds the
nesting depth.  The lemmas below make that argument formal: the visited
set only grows (`_subset`), its cardinality never exceeds 10 starting from
the empty set (`_card`), and the result is unchanged once the fuel reaches
12 (`_stable`), i.e. the walk always returns after examining a bounded
number of blocks. -/

theorem guardPredLoop_subset (step : Nat → Finset Nat → Bool × Finset Nat)
    (hstep : ∀ p v, v ⊆ (step p v).2) (g : CFG) (hz : Hazard) :
    ∀ (preds : List Nat) (v : Finset Nat), v ⊆ (guardPredLoop step g hz preds v).2 := by
  intro preds
  induction preds with
  | nil => intro v; exact Finset.Subset.refl v
  | cons p rest ih =>
      intro v
      simp only [guardPredLoop]
      split
      · exact Finset.Subset.refl v
      · split
        · -- recursion gate open: next = step p v
          split
          · exact hstep p v
          · exact (hstep p v).trans (ih _)
        · -- gate closed: next = (false, v)
          split
          · exact Finset.Subset.refl v
          · exact ih v

theorem checkPredecessorsImpl_subset (g : CFG) (hz : Hazard) :
    ∀ (fuel b : Nat) (v : Finset Nat), v ⊆ (checkPredecessorsImpl g hz fuel b v).2 := by
  intro fuel
  induction fuel with
  | zero => intro b v; exact Finset.Subset.refl v
  | succ n ih =>
      intro b v
      simp only [checkPredecessorsImpl]
      split
      · exact Finset.Subset.refl v
      · exact (Finset.subset_insert b v).trans
          (guardPredLoop_subset _ (fun p w => ih p w) g hz _ _)

theorem guardPredLoop_card (step : Nat → Finset Nat → Bool × Finset Nat)
    (hstep : ∀ p v, v.card < 10 → (step p v).2.card ≤ 10) (g : CFG) (hz : Hazard) :
    ∀ (preds : List Nat) (v : Finset Nat),
      (guardPredLoop step g hz preds v).2.card ≤ max v.card 10 := by
  intro preds
  induction preds with
  | nil => intro v; exact le_max_left _ _
  | cons p rest ih =>
      intro v
      simp only [guardPredLoop]
      split
      · exact le_max_left _ _
      · split
        · next hlt =>
            split
            · exact le_max_of_le_right (hstep p v hlt)
            · exact le_trans (ih _)
                (max_le (le_max_of_le_right (hstep p v hlt)) (le_max_right _ _))
        · split
          · exact le_max_left _ _
          · exact ih v

theorem checkPredecessorsImpl_card (g : CFG) (hz : Hazard) :
    ∀ (fuel b : Nat) (v : Finset Nat),
      (checkPredecessorsImpl g hz fuel b v).2.card ≤ max (v.card + 1) 10 := by
  intro fuel
  induction fuel with
  | zero => intro b v; exact le_max_of_le_left (Nat.le_succ _)
  | succ n ih =>
      intro b v
      simp only [checkPredecessorsImpl]
      split
      · exact le_max_of_le_left (Nat.le_succ _)
      · refine le_trans (guardPredLoop_card _ ?_ g hz _ _) ?_
        · intro p w hw
          exact le_trans (ih p w) (by omega)
        · have := Finset.card_insert_le b v
          exact max_le (le_trans this (le_max_left _ _)) (le_max_right _ _)

theorem guardPredLoop_congr (g : CFG) (hz : Hazard)
    (step1 step2 : Nat → Finset Nat → Bool × Finset Nat) (w : Finset Nat)
    (hstep_eq : ∀ p v, v.card < 10 → w ⊆ v → step1 p v = step2 p v)
    (hstep_mono : ∀ p v, v ⊆ (step2 p v).2) :
    ∀ (preds : List Nat) (v : Finset Nat), w ⊆ v →
      guardPredLoop step1 g hz preds v = guardPredLoop step2 g hz preds v := by
  intro preds
  induction preds with
  | nil => intro v _; rfl
  | cons p rest ih =>
      intro v hwv
      simp only [guardPredLoop]
      split
      · rfl
      · split
        · next hlt =>
            rw [hstep_eq p v hlt hwv]
            split
            · rfl
            · exact ih _ (hwv.trans (hstep_mono p v))
        · split
          · rfl
          · exact ih v hwv

theorem checkPredecessorsImpl_stable (g : CFG) (hz : Hazard) :
    ∀ (fuel b : Nat) (v : Finset Nat), 12 ≤ fuel + v.card → v.card ≤ 10 →
      checkPredecessorsImpl g hz (fuel + 1) b v = checkPredecessorsImpl g hz fuel b v := by
  intro fuel
  induction fuel with
  | zero => intro b v h1 h2; omega
  | succ n ih =>
      intro b v h1 h2
      conv_lhs => rw [checkPredecessorsImpl]
      conv_rhs => rw [checkPredecessorsImpl]
      split
      · rfl
      · next hb =>
          refine guardPredLoop_congr g hz _ _ (insert b v) ?_ ?_ _ _
            (Finset.Subset.refl _)
          · intro p u hu hsub
            have hcard : v.card + 1 ≤ u.card := by
              have : (insert b v).card = v.card + 1 := Finset.card_insert_of_not_mem hb
              calc v.card + 1 = (insert b v).card := this.symm
                _ ≤ u.card := Finset.card_le_card hsub
            exact ih p u (by omega) (by omega)
          · exact fun p u => checkPredecessorsImpl_subset g hz n p u

theorem findPredLoop_subset (step : Nat → Finset Nat → Option String × Finset Nat)
    (hstep : ∀ p v, v ⊆ (step p v).2) (g : CFG) (hz : Hazard) :
    ∀ (preds : List Nat) (v : Finset Nat), v ⊆ (findPredLoop step g hz preds v).2 := by
  intro preds
  induction preds with
  | nil => intro v; exact Finset.Subset.refl v
  | cons p rest ih =>
      intro v
      simp only [findPredLoop]
      split
      · exact Finset.Subset.refl v
      · by_cases hgate : v.card < 10
        · rw [if_pos hgate]
          split
          · exact hstep p v
          · exact (hstep p v).trans (ih _)
        · rw [if_neg hgate]
          exact ih v

theorem findGuardImpl_subset (g : CFG) (hz : Hazard) :
    ∀ (fuel b : Nat) (v : Finset Nat), v ⊆ (findGuardImpl g hz fuel b v).2 := by
  intro fuel
  induction fuel with
  | zero => intro b v; exact Finset.Subset.refl v
  | succ n ih =>
      intro b v
      simp only [findGuardImpl]
      split
      · exact Finset.Subset.refl v
      · exact (Finset.subset_insert b v).trans
          (findPredLoop_subset _ (fun p w => ih p w) g hz _ _)

theorem findPredLoop_card (step : Nat → Finset Nat → Option String × Finset Nat)
    (hstep : ∀ p v, v.card < 10 → (step p v).2.card ≤ 10) (g : CFG) (hz : Hazard) :
    ∀ (preds : List Nat) (v : Finset Nat),
      (findPredLoop step g hz preds v).2.card ≤ max v.card 10 := by
  intro preds
  induction preds with
  | nil => intro v; exact le_max_left _ _
  | cons p rest ih =>
      intro v
      simp only [findPredLoop]
      split
      · exact le_max_left _ _
      · by_cases hgate : v.card < 10
        · rw [if_pos hgate]
          split
          · exact le_max_of_le_right (hstep p v hgate)
          · exact le_trans (ih _)
              (max_le (le_max_of_le_right (hstep p v hgate)) (le_max_right _ _))
        · rw [if_neg hgate]
          exact ih v

theorem findGuardImpl_card (g : CFG) (hz : Hazard) :
    ∀ (fuel b : Nat) (v : Finset Nat),
      (findGuardImpl g hz fuel b v).2.card ≤ max (v.card + 1) 10 := by
  intro fuel
  induction fuel with
  | zero => intro b v; exact le_max_of_le_left (Nat.le_succ _)
  | succ n ih =>
      intro b v
      simp only [findGuardImpl]
      split
      · exact le_max_of_le_left (Nat.le_succ _)
      · refine le_trans (findPredLoop_card _ ?_ g hz _ _) ?_
        · intro p w hw
          exact le_trans (ih p w) (by omega)
        · have := Finset.card_insert_le b v
          exact max_le (le_trans this (le_max_left _ _)) (le_max_right _ _)

theorem findPredLoop_congr (g : CFG) (hz : Hazard)
    (step1 step2 : Nat → Finset Nat → Option String × Finset Nat) (w : Finset Nat)
    (hstep_eq : ∀ p v, v.card < 10 → w ⊆ v → step1 p v = step2 p v)
    (hstep_mono : ∀ p v, v ⊆ (step2 p v).2) :
    ∀ (preds : List Nat) (v : Finset Nat), w ⊆ v →
      findPredLoop step1 g hz preds v = findPredLoop step2 g hz preds v := by
  intro preds
  induction preds with
  | nil => intro v _; rfl
  | cons p rest ih =>
      intro v hwv
      simp only [findPredLoop]
      split
      · rfl
      · by_cases hgate : v.card < 10
        · rw [if_pos hgate, if_pos hgate, hstep_eq p v hgate hwv]
          split
          · rfl
          · exact ih _ (hwv.trans (hstep_mono p v))
        · rw [if_neg hgate, if_neg hgate]
          exact ih v hwv

theorem findGuardImpl_stable (g : CFG) (hz : Hazard) :
    ∀ (fuel b : Nat) (v : Finset Nat), 12 ≤ fuel + v.card → v.card ≤ 10 →
      findGuardImpl g hz (fuel + 1) b v = findGuardImpl g hz fuel b v := by
  intro fuel
  induction fuel with
  | zero => intro b v h1 h2; omega
  | succ n ih =>
      intro b v h1 h2
      conv_lhs => rw [findGuardImpl]
      conv_rhs => rw [findGuardImpl]
      split
      · rfl
      · next hb =>
          refine findPredLoop_congr g hz _ _ (insert b v) ?_ ?_ _ _
            (Finset.Subset.refl _)
          · intro p u hu hsub
            have hcard : v.card + 1 ≤ u.card := by
              have : (insert b v).card = v.card + 1 := Finset.card_insert_of_not_mem hb
              calc v.card + 1 = (insert b v).card := this.symm
                _ ≤ u.card := Finset.card_le_card hsub
            exact ih p u (by omega) (by omega)
          · exact fun p u => findGuardImpl_subset g hz n p u

/-- **C8.** The guard analyzer's predecessor walk terminates on every CFG,
including cyclic/irreducible ones: starting from the empty visited set the
visited set records at most 10 blocks, and the result of the walk is
already stable at recursion depth 12 — unrolling `checkPredecessorsImpl`
(behind `isGuarded`) or `findGuardImpl` (behind `findGuard`) any deeper
never changes the outcome, so both return after examining a bounded number
of blocks. -/
theorem predecessor_walk_bounded (g : CFG) (hz : Hazard) (b fuel : Nat)
    (hfuel : 12 ≤ fuel) :
    checkPredecessorsImpl g hz fuel b ∅ = checkPredecessorsImpl g hz 12 b ∅ ∧
    findGuardImpl g hz fuel b ∅ = findGuardImpl g hz 12 b ∅ ∧
    (checkPredecessorsImpl g hz fuel b ∅).2.card ≤ 10 ∧
    (findGuardImpl g hz fuel b ∅).2.card ≤ 10 := by
  have hstable : ∀ n, 12 ≤ n →
      checkPredecessorsImpl g hz n b ∅ = checkPredecessorsImpl g hz 12 b ∅ := by
    intro n hn
    induction n, hn using Nat.le_induction with
    | base => rfl
    | succ n hn ih =>
        rw [checkPredecessorsImpl_stable g hz n b ∅ (by simp; omega) (by simp), ih]
  have hstable' : ∀ n, 12 ≤ n →
      findGuardImpl g hz n b ∅ = findGuardImpl g hz 12 b ∅ := by
    intro n hn
    induction n, hn using Nat.le_induction with
    | base => rfl
    | succ n hn ih =>
        rw [findGuardImpl_stable g hz n b ∅ (by simp; omega) (by simp), ih]
  refine ⟨hstable fuel hfuel, hstable' fuel hfuel, ?_, ?_⟩
  · simpa using checkPredecessorsImpl_card g hz fuel b ∅
  · simpa using findGuardImpl_card g hz fuel b ∅

/-- Witness for C8 on a concrete two-block cyclic CFG (blocks 0 and 1 are
mutual predecessors), at fuel 13. -/
theorem predecessor_walk_bounded_witness :
    checkPredecessorsImpl
        { blocks := [{ blockID := 0, stmtLines := [5], predIDs := [1] },
                     { blockID := 1, predIDs := [0],
                       termCond := some (.binary .NE (.declRef "q") (.intLit 0) 3) }] }
        { type := .DIVISION, expression := "x / q", operand := "q", line := 5 }
        13 0 ∅ =
      checkPredecessorsImpl
        { blocks := [{ blockID := 0, stmtLines := [5], predIDs := [1] },
                     { blockID := 1, predIDs := [0],
                       termCond := some (.binary .NE (.declRef "q") (.intLit 0) 3) }] }
        { type := .DIVISION, expression := "x / q", operand := "q", line := 5 }
        12 0 ∅ ∧
    findGuardImpl
        { blocks := [{ blockID := 0, stmtLines := [5], predIDs := [1] },
                     { blockID := 1, predIDs := [0],
                       termCond := some (.binary .NE (.declRef "q") (.intLit 0) 3) }] }
        { type := .DIVISION, expression := "x / q", operand := "q", line := 5 }
        13 0 ∅ =
      findGuardImpl
        { blocks := [{ blockID := 0, stmtLines := [5], predIDs := [1] },
                     { blockID := 1, predIDs := [0],
                       termCond := some (.binary .NE (.declRef "q") (.intLit 0) 3) }] }
        { type := .DIVISION, expression := "x / q", operand := "q", line := 5 }
        12 0 ∅ ∧
    (checkPredecessorsImpl
        { blocks := [{ blockID := 0, stmtLines := [5], predIDs := [1] },
                     { blockID := 1, predIDs := [0],
                       termCond := some (.binary .NE (.declRef "q") (.intLit 0) 3) }] }
        { type := .DIVISION, expression := "x / q", operand := "q", line := 5 }
        13 0 ∅).2.card ≤ 10 ∧
    (findGuardImpl
        { blocks := [{ blockID := 0, stmtLines := [5], predIDs := [1] },
                     { blockID := 1, predIDs := [0],
                       termCond := some (.binary .NE (.declRef "q") (.intLit 0) 3) }] }
        { type := .DIVISION, expression := "x / q", operand := "q", line := 5 }
        13 0 ∅).2.card ≤ 10 :=
  predecessor_walk_bounded
    { blocks := [{ blockID := 0, stmtLines := [5], predIDs := [1] },
                 { blockID := 1, predIDs := [0],
                   termCond := some (.binary .NE (.declRef "q") (.intLit 0) 3) }] }
    { type := .DIVISION, expression := "x / q", operand := "q", line := 5 }
    0 13 (by omega)

end AxiomExtract
